import Mathlib

/-!
Verification development for the AtlasOra property rental system.

Part 1 embeds the `BookingManager` smart contract (booking lifecycle state
machine): statuses, the booking record, the date-conflict test, both booking
creation variants, the check-in / dispute / escalation / admin-resolution
transitions, and a reachability relation over manager states.

Part 2 embeds the backend `EventListener` (event-sourced sync engine):
event identity, the idempotent `processEvent` wrapper, the polling loop
`processNewBlocks`, and the Strapi projection handlers
(`createBookingInStrapi` and its lookup helpers).

Conventions of the embedding:
* addresses are `Nat` (0 plays the role of `address(0)`);
* timestamps and token amounts are `Nat` (EVM uint256; Solidity 0.8 checked
  subtraction is modelled by an explicit comparison before subtracting);
* Solidity mapping reads of absent keys return the zero value, modelled by
  `zeroBooking` / a `PropInfo` with `host = 0, isActive = false`;
* reverts are modelled as `Except` errors: an error leaves the state
  untouched.
-/

deriving instance DecidableEq for Except

namespace AtlasOra

/-- Booking status enum of `BookingManager` (declaration order matters:
`Active` is the zero value a mapping read yields for an absent booking). -/
inductive BookingStatus where
  | Active
  | CheckInReady
  | CheckedIn
  | Completed
  | Disputed
  | Cancelled
  | Refunded
  | EscalatedToAdmin
deriving DecidableEq, Repr

/-- The `Booking` struct of `BookingManager`, field for field. -/
structure Booking where
  bookingId : Nat
  propertyId : String
  guest : Nat
  host : Nat
  checkInDate : Nat
  checkOutDate : Nat
  totalAmount : Nat
  platformFee : Nat
  hostAmount : Nat
  status : BookingStatus
  checkInWindowStart : Nat
  checkInDeadline : Nat
  disputeDeadline : Nat
  isCheckInComplete : Bool
  isResolvedByHost : Bool
  isResolvedByGuest : Bool
  disputeReason : String
  bookingURI : String
  paymentReference : String
  paidOffChain : Bool
deriving DecidableEq, Repr

/-- The slice of `PropertyMarketplace.properties(propertyId)` that
`BookingManager` reads: the host address and the active flag.  An absent
property is the zero struct: `host = 0`, `isActive = false`. -/
structure PropInfo where
  host : Nat
  isActive : Bool
deriving DecidableEq, Repr

/-- Revert reasons of `BookingManager`, one constructor per `require`
message (plus `notOwner` for the `onlyOwner` modifier and `feeUnderflow`
for the checked subtraction `totalAmount - platformFee`). -/
inductive BmErr where
  | propertyNotActive
  | propertyNotExists
  | selfBooking
  | checkInNotFuture
  | checkOutNotAfterCheckIn
  | dateConflict
  | atLeastOneNight
  | feeUnderflow
  | bookingNotFound
  | notActive
  | checkInDateNotReached
  | windowAlreadyTriggered
  | notGuest
  | notReadyForCheckIn
  | checkInWindowExpired
  | notInCheckInWindow
  | windowNotExpired
  | notHost
  | notInDispute
  | disputeWindowExpired
  | disputeWindowNotExpired
  | alreadyResolved
  | notOwner
  | notEscalated
  | invalidPercentage
  | cannotCancel
  | pastCheckInDate
  | invalidTreasury
deriving DecidableEq, Repr

/-- State of a `BookingManager` instance.  `bookings` lists the created
bookings in creation order; booking ids are assigned `1, 2, …` by the
counter, so the contract's `bookings` mapping is recovered by `getBooking`
and its `propertyBookings[pid]` array is exactly the sublist of bookings
whose `propertyId` is `pid` (both are only ever appended to, together, at
creation).  `owner` is the contract owner (the admin/arbiter), `treasury`
the platform fee recipient. -/
structure BMState where
  bookings : List Booking
  owner : Nat
  treasury : Nat
deriving DecidableEq, Repr

/-- The zero `Booking` struct that a Solidity mapping read returns for an
id that was never assigned. -/
def zeroBooking : Booking :=
  { bookingId := 0, propertyId := "", guest := 0, host := 0, checkInDate := 0,
    checkOutDate := 0, totalAmount := 0, platformFee := 0, hostAmount := 0,
    status := .Active, checkInWindowStart := 0, checkInDeadline := 0,
    disputeDeadline := 0, isCheckInComplete := false, isResolvedByHost := false,
    isResolvedByGuest := false, disputeReason := "", bookingURI := "",
    paymentReference := "", paidOffChain := false }

/-- Read `bookings[bid]` with Solidity mapping semantics. -/
def getBooking (s : BMState) (bid : Nat) : Booking :=
  (s.bookings.find? (fun b => b.bookingId == bid)).getD zeroBooking

/-- Write through `bookings[bid]` by applying `u` to the stored booking. -/
def setBooking (s : BMState) (bid : Nat) (u : Booking → Booking) : BMState :=
  { s with bookings := s.bookings.map (fun b => if b.bookingId == bid then u b else b) }

/-- Seconds in `1 days`. -/
def oneDay : Nat := 86400

/-- Length of `CHECK_IN_WINDOW` (24 hours). -/
def checkInWindowLen : Nat := 86400

/-- Length of `DISPUTE_RESOLUTION_WINDOW` (24 hours). -/
def disputeWindowLen : Nat := 86400

/-- Embedding of `BookingManager.hasBookingConflict`: scans the property's bookings,
skips `Cancelled` and `Refunded` ones, and reports a conflict when
`newCheckIn < existingCheckOut && newCheckOut > existingCheckIn`.
The contract iterates `propertyBookings[pid]`; here that array is the
sublist of `bookings` with matching `propertyId`, so the scan is an `any`
over all bookings guarded by the property id. -/
def hasBookingConflict (s : BMState) (pid : String) (inD outD : Nat) : Bool :=
  s.bookings.any fun b =>
    b.propertyId == pid &&
    !(b.status == .Cancelled || b.status == .Refunded) &&
    decide (inD < b.checkOutDate) && decide (outD > b.checkInDate)

/-- Embedding of `BookingManager.createBooking` (escrowed EURC variant).  `props` is the
marketplace's `properties` mapping and `feeRate` its
`platformFeePercentage()` at call time; `now` is `block.timestamp` and
`caller` is `_msgSender()`.  The EURC `safeTransferFrom` escrow deposit has
no effect on manager state and is not recorded.  Returns the new state and
the assigned booking id. -/
def createBooking (props : String → PropInfo) (feeRate : Nat) (now caller : Nat)
    (pid : String) (inD outD amt : Nat) (uri : String) (s : BMState) :
    Except BmErr (BMState × Nat) :=
  if (props pid).isActive = false then .error .propertyNotActive
  else if (props pid).host = 0 then .error .propertyNotExists
  else if (props pid).host = caller then .error .selfBooking
  else if inD ≤ now then .error .checkInNotFuture
  else if outD ≤ inD then .error .checkOutNotAfterCheckIn
  else if hasBookingConflict s pid inD outD then .error .dateConflict
  else if (outD - inD) / oneDay = 0 then .error .atLeastOneNight
  else if amt < amt * feeRate / 1000 then .error .feeUnderflow
  else
    .ok ({ s with bookings := s.bookings ++
      [{ bookingId := s.bookings.length + 1, propertyId := pid, guest := caller,
         host := (props pid).host, checkInDate := inD, checkOutDate := outD,
         totalAmount := amt, platformFee := amt * feeRate / 1000,
         hostAmount := amt - amt * feeRate / 1000, status := .Active,
         checkInWindowStart := 0, checkInDeadline := 0, disputeDeadline := 0,
         isCheckInComplete := false, isResolvedByHost := false,
         isResolvedByGuest := false, disputeReason := "", bookingURI := uri,
         paymentReference := "", paidOffChain := false }] }, s.bookings.length + 1)

/-- Embedding of `BookingManager.createBookingPaid` (externally settled variant): same
checks as `createBooking` except the self-booking guard, no escrow
transfer, `paidOffChain = true` and the payment reference recorded. -/
def createBookingPaid (props : String → PropInfo) (feeRate : Nat) (now caller : Nat)
    (pid : String) (inD outD amt : Nat) (payRef uri : String) (s : BMState) :
    Except BmErr (BMState × Nat) :=
  if (props pid).isActive = false then .error .propertyNotActive
  else if (props pid).host = 0 then .error .propertyNotExists
  else if inD ≤ now then .error .checkInNotFuture
  else if outD ≤ inD then .error .checkOutNotAfterCheckIn
  else if hasBookingConflict s pid inD outD then .error .dateConflict
  else if (outD - inD) / oneDay = 0 then .error .atLeastOneNight
  else if amt < amt * feeRate / 1000 then .error .feeUnderflow
  else
    .ok ({ s with bookings := s.bookings ++
      [{ bookingId := s.bookings.length + 1, propertyId := pid, guest := caller,
         host := (props pid).host, checkInDate := inD, checkOutDate := outD,
         totalAmount := amt, platformFee := amt * feeRate / 1000,
         hostAmount := amt - amt * feeRate / 1000, status := .Active,
         checkInWindowStart := 0, checkInDeadline := 0, disputeDeadline := 0,
         isCheckInComplete := false, isResolvedByHost := false,
         isResolvedByGuest := false, disputeReason := "", bookingURI := uri,
         paymentReference := payRef, paidOffChain := true }] }, s.bookings.length + 1)

/-- Embedding of `BookingManager.triggerCheckInWindow` (permissionless).  Note the
contract's existence check `booking.bookingId == _bookingId` is vacuous for
`_bookingId = 0` (the zero struct passes every guard); in that corner the
contract writes a phantom `bookings[0]` entry that no `propertyBookings`
array references, while this model leaves the state unchanged — invisible
to every property-indexed or created-booking query. -/
def triggerCheckInWindow (now bid : Nat) (s : BMState) : Except BmErr BMState :=
  if (getBooking s bid).bookingId ≠ bid then .error .bookingNotFound
  else if (getBooking s bid).status ≠ .Active then .error .notActive
  else if now < (getBooking s bid).checkInDate then .error .checkInDateNotReached
  else if (getBooking s bid).checkInWindowStart ≠ 0 then .error .windowAlreadyTriggered
  else .ok (setBooking s bid fun bk =>
    { bk with
        checkInWindowStart := now
        checkInDeadline := now + checkInWindowLen
        status := .CheckInReady })

/-- Embedding of `BookingManager.checkIn` (guest only, within the window). -/
def checkIn (now caller bid : Nat) (s : BMState) : Except BmErr BMState :=
  if (getBooking s bid).guest ≠ caller then .error .notGuest
  else if (getBooking s bid).status ≠ .CheckInReady then .error .notReadyForCheckIn
  else if (getBooking s bid).checkInDeadline < now then .error .checkInWindowExpired
  else .ok (setBooking s bid fun bk =>
    { bk with status := .CheckedIn, isCheckInComplete := true })

/-- Embedding of `BookingManager.processMissedCheckIn` (permissionless, after the
check-in deadline). -/
def processMissedCheckIn (now bid : Nat) (s : BMState) : Except BmErr BMState :=
  if (getBooking s bid).status ≠ .CheckInReady then .error .notInCheckInWindow
  else if now ≤ (getBooking s bid).checkInDeadline then .error .windowNotExpired
  else .ok (setBooking s bid fun bk =>
    { bk with
        status := .Disputed
        disputeDeadline := now + disputeWindowLen
        disputeReason := "Missed check-in" })

/-- An EURC transfer out of the contract. -/
structure Transfer where
  recipient : Nat
  amount : Nat
deriving DecidableEq, Repr

/-- The transfers `_completeBooking` performs: platform fee to the
treasury and `hostAmount` to the host, both skipped for off-chain-paid
bookings. -/
def completeTransfers (treasury : Nat) (b : Booking) : List Transfer :=
  if b.paidOffChain then [] else [⟨treasury, b.platformFee⟩, ⟨b.host, b.hostAmount⟩]

/-- Embedding of `BookingManager.hostResolveDispute`: host only, booking `Disputed`,
within the dispute window.  Sets `isResolvedByHost`; if the guest had
already resolved, `_completeBooking` runs in the same call (status
`Completed` plus the settlement transfers). -/
def hostResolveDispute (now caller bid : Nat) (s : BMState) :
    Except BmErr (BMState × List Transfer) :=
  if (getBooking s bid).host ≠ caller then .error .notHost
  else if (getBooking s bid).status ≠ .Disputed then .error .notInDispute
  else if (getBooking s bid).disputeDeadline < now then .error .disputeWindowExpired
  else
    .ok (setBooking s bid fun bk =>
          if bk.isResolvedByGuest then { bk with isResolvedByHost := true, status := .Completed }
          else { bk with isResolvedByHost := true },
        if (getBooking s bid).isResolvedByGuest then
          completeTransfers s.treasury (getBooking s bid)
        else [])

/-- Embedding of `BookingManager.guestResolveDispute`: mirror image of
`hostResolveDispute` for the guest. -/
def guestResolveDispute (now caller bid : Nat) (s : BMState) :
    Except BmErr (BMState × List Transfer) :=
  if (getBooking s bid).guest ≠ caller then .error .notGuest
  else if (getBooking s bid).status ≠ .Disputed then .error .notInDispute
  else if (getBooking s bid).disputeDeadline < now then .error .disputeWindowExpired
  else
    .ok (setBooking s bid fun bk =>
          if bk.isResolvedByHost then { bk with isResolvedByGuest := true, status := .Completed }
          else { bk with isResolvedByGuest := true },
        if (getBooking s bid).isResolvedByHost then
          completeTransfers s.treasury (getBooking s bid)
        else [])

/-- Embedding of `BookingManager.escalateDispute` (permissionless): booking `Disputed`,
dispute window expired, and not both parties resolved. -/
def escalateDispute (now bid : Nat) (s : BMState) : Except BmErr BMState :=
  if (getBooking s bid).status ≠ .Disputed then .error .notInDispute
  else if now ≤ (getBooking s bid).disputeDeadline then .error .disputeWindowNotExpired
  else if (getBooking s bid).isResolvedByHost && (getBooking s bid).isResolvedByGuest then
    .error .alreadyResolved
  else .ok (setBooking s bid fun bk => { bk with status := .EscalatedToAdmin })

/-- Embedding of `BookingManager.adminResolveDispute` (owner only): splits `hostAmount`
by `guestPercentage`, always sends the platform fee to the treasury on the
on-chain path, skips all transfers for off-chain-paid bookings, and sets
the status to `Refunded` exactly when the percentage is 100, `Completed`
otherwise. -/
def adminResolveDispute (caller bid pct : Nat) (s : BMState) :
    Except BmErr (BMState × List Transfer) :=
  if caller ≠ s.owner then .error .notOwner
  else if (getBooking s bid).status ≠ .EscalatedToAdmin then .error .notEscalated
  else if 100 < pct then .error .invalidPercentage
  else if (getBooking s bid).paidOffChain then
    .ok (setBooking s bid fun bk =>
          { bk with status := if pct = 100 then .Refunded else .Completed }, [])
  else
    .ok (setBooking s bid fun bk =>
          { bk with status := if pct = 100 then .Refunded else .Completed },
        (if 0 < (getBooking s bid).hostAmount * pct / 100 then
          [⟨(getBooking s bid).guest, (getBooking s bid).hostAmount * pct / 100⟩]
         else []) ++
        (if 0 < (getBooking s bid).hostAmount - (getBooking s bid).hostAmount * pct / 100 then
          [⟨(getBooking s bid).host,
            (getBooking s bid).hostAmount - (getBooking s bid).hostAmount * pct / 100⟩]
         else []) ++
        [⟨s.treasury, (getBooking s bid).platformFee⟩])

/-- Embedding of `BookingManager.cancelBooking`: guest only, booking `Active`, strictly
before the check-in date.  Refunds `hostAmount` to the guest and keeps the
fee (transfers skipped off-chain). -/
def cancelBooking (now caller bid : Nat) (s : BMState) :
    Except BmErr (BMState × List Transfer) :=
  if (getBooking s bid).guest ≠ caller then .error .notGuest
  else if (getBooking s bid).status ≠ .Active then .error .cannotCancel
  else if (getBooking s bid).checkInDate ≤ now then .error .pastCheckInDate
  else
    .ok (setBooking s bid fun bk => { bk with status := .Cancelled },
        if (getBooking s bid).paidOffChain then []
        else [⟨(getBooking s bid).guest, (getBooking s bid).hostAmount⟩,
              ⟨s.treasury, (getBooking s bid).platformFee⟩])

/-- Embedding of `BookingManager.setTreasury` (owner only, nonzero address). -/
def setTreasury (caller t : Nat) (s : BMState) : Except BmErr BMState :=
  if caller ≠ s.owner then .error .notOwner
  else if t = 0 then .error .invalidTreasury
  else .ok { s with treasury := t }

/-- One successful `BookingManager` transition, with the environment
(marketplace contents, fee rate, clock, caller, arguments) chosen
arbitrarily at each step. -/
inductive Step : BMState → BMState → Prop where
  | create (props : String → PropInfo) (feeRate now caller : Nat) (pid : String)
      (inD outD amt : Nat) (uri : String) (s s' : BMState) (bid : Nat)
      (h : createBooking props feeRate now caller pid inD outD amt uri s = .ok (s', bid)) :
      Step s s'
  | createPaid (props : String → PropInfo) (feeRate now caller : Nat) (pid : String)
      (inD outD amt : Nat) (payRef uri : String) (s s' : BMState) (bid : Nat)
      (h : createBookingPaid props feeRate now caller pid inD outD amt payRef uri s
            = .ok (s', bid)) :
      Step s s'
  | trigger (now bid : Nat) (s s' : BMState)
      (h : triggerCheckInWindow now bid s = .ok s') : Step s s'
  | doCheckIn (now caller bid : Nat) (s s' : BMState)
      (h : checkIn now caller bid s = .ok s') : Step s s'
  | missed (now bid : Nat) (s s' : BMState)
      (h : processMissedCheckIn now bid s = .ok s') : Step s s'
  | hostResolve (now caller bid : Nat) (s s' : BMState) (tr : List Transfer)
      (h : hostResolveDispute now caller bid s = .ok (s', tr)) : Step s s'
  | guestResolve (now caller bid : Nat) (s s' : BMState) (tr : List Transfer)
      (h : guestResolveDispute now caller bid s = .ok (s', tr)) : Step s s'
  | escalate (now bid : Nat) (s s' : BMState)
      (h : escalateDispute now bid s = .ok s') : Step s s'
  | adminResolve (caller bid pct : Nat) (s s' : BMState) (tr : List Transfer)
      (h : adminResolveDispute caller bid pct s = .ok (s', tr)) : Step s s'
  | cancel (now caller bid : Nat) (s s' : BMState) (tr : List Transfer)
      (h : cancelBooking now caller bid s = .ok (s', tr)) : Step s s'
  | treasuryChange (caller t : Nat) (s s' : BMState)
      (h : setTreasury caller t s = .ok s') : Step s s'

/-- States reachable from a freshly deployed manager. -/
inductive Reach : BMState → Prop where
  | init (owner treasury : Nat) : Reach ⟨[], owner, treasury⟩
  | step (s s' : BMState) (hr : Reach s) (hs : Step s s') : Reach s'

/-- True exactly for the two statuses `hasBookingConflict` skips. -/
def isCancelledOrRefunded (st : BookingStatus) : Bool :=
  st == .Cancelled || st == .Refunded

/-- Booking ids are the positions shifted by one (so ids are distinct and
the id counter equals the list length). -/
def IdsWellFormed (s : BMState) : Prop :=
  ∀ i : Nat, ∀ hi : i < s.bookings.length, (s.bookings.get ⟨i, hi⟩).bookingId = i + 1

/-- No two distinct bookings on one property overlap unless one of them is
`Cancelled` or `Refunded`. -/
def ActiveOverlapFree (l : List Booking) : Prop :=
  ∀ b1 ∈ l, ∀ b2 ∈ l, b1.bookingId ≠ b2.bookingId → b1.propertyId = b2.propertyId →
    b1.checkInDate < b2.checkOutDate → b2.checkInDate < b1.checkOutDate →
    isCancelledOrRefunded b1.status = true ∨ isCancelledOrRefunded b2.status = true

/-- Fee conservation for every stored booking. -/
def FeeConserved (l : List Booking) : Prop :=
  ∀ b ∈ l, b.platformFee + b.hostAmount = b.totalAmount

/-- The inductive invariant of the manager. -/
def Inv (s : BMState) : Prop :=
  IdsWellFormed s ∧ ActiveOverlapFree s.bookings ∧ FeeConserved s.bookings

/-! ## Part 2: the backend `EventListener` sync engine -/

/-- A fetched ledger event as the listener sees it: transaction hash, event
name, the canonicalized argument payload (the listener JSON-stringifies the
args with BigInt values rendered as strings; `argsJson` stands for that
canonical string), block number and intra-block transaction index. -/
structure Ev where
  txHash : String
  name : String
  argsJson : String
  blockNumber : Nat
  txIndex : Nat
deriving DecidableEq, Repr

/-- Event identity as `processEvent` computes it:
`transactionHash-eventName-JSON.stringify(safeArgs)`, modelled as the
tuple of the three components. -/
def eventId (e : Ev) : String × String × String := (e.txHash, e.name, e.argsJson)

/-- Listener state over a projection type `π`: the committed set
(`processedEvents`), the process-local in-flight set (`processingEvents`),
the block cursor (`lastProcessedBlock`), the external projection, and a log
of handler invocations (which handler calls actually happened — the code
has no such field; it records the side effects we reason about). -/
structure ListenerState (π : Type) where
  processedEvents : List (String × String × String)
  processingEvents : List (String × String × String)
  lastProcessedBlock : Nat
  proj : π
  handlerLog : List Ev

/-- Embedding of `EventListener.processEvent`: skip if the identity is in-flight or
committed; otherwise mark in-flight, dispatch (`hasH` tells whether
`getEventHandler` knows the name; unknown events are logged and skipped
without committing), on handler success (`some`) commit the identity, on
handler exception (`none`) commit nothing; the `finally` block always
removes the in-flight marker, so across the call `processingEvents` is
unchanged — the marker is released, never leaked. -/
def processEvent {π : Type} (hasH : String → Bool) (handler : Ev → π → Option π)
    (s : ListenerState π) (e : Ev) : ListenerState π :=
  if (eventId e) ∈ s.processingEvents then s
  else if (eventId e) ∈ s.processedEvents then s
  else if hasH e.name then
    match handler e s.proj with
    | some p' =>
      { s with
          proj := p'
          processedEvents := eventId e :: s.processedEvents
          handlerLog := s.handlerLog ++ [e] }
    | none => { s with handlerLog := s.handlerLog ++ [e] }
  else s

/-- Embedding of `EventListener.processNewBlocks`: when the chain head moved past the
cursor, run `processEvent` over the fetched events (already sorted by
block number then transaction index by `getAllEvents`) and then set the
cursor to the fetched head.  `processEvent` swallows handler errors, so
the cursor update is unconditional. -/
def processNewBlocks {π : Type} (hasH : String → Bool) (handler : Ev → π → Option π)
    (currentBlock : Nat) (events : List Ev) (s : ListenerState π) : ListenerState π :=
  if s.lastProcessedBlock < currentBlock then
    let s' := events.foldl (processEvent hasH handler) s
    { s' with lastProcessedBlock := currentBlock }
  else s

/-! ## Strapi projection (booking-creation handler) -/

/-- A Strapi property record (the fields the listener reads). -/
structure StrapiProperty where
  id : Nat
  blockchainPropertyId : String
deriving DecidableEq, Repr

/-- A Strapi booking record.  `propertyRel` is the `property` relation
(the Strapi property id), `blockchainBookingId` the ledger booking id;
`startDate`, `endDate` and `status` carry the date range and status.  The
monetary columns (`TotalPaid`, `PriceperNight`, `AtlasFee`) go through
JavaScript float parsing in the source and play no role in the claims;
they are not modelled. -/
structure StrapiBooking where
  id : Nat
  propertyRel : Nat
  blockchainBookingId : String
  startDate : Nat
  endDate : Nat
  status : String
deriving DecidableEq, Repr

/-- The projection store: property records, booking records, and the next
record id Strapi would assign. -/
structure Strapi where
  properties : List StrapiProperty
  bookings : List StrapiBooking
  nextId : Nat
deriving DecidableEq, Repr

/-- The booking payload `createBookingInStrapi` receives from the
`BookingCreated` / `BookingCreatedPaid` handlers. -/
structure BookingData where
  bookingId : String
  propertyId : String
  startDate : Nat
  endDate : Nat
  status : String
deriving DecidableEq, Repr

/-- Embedding of `EventListener.findBookingByBlockchainId`: fetches all booking records
and then filters them with a callback that — per the source's own comment
("For now, return empty array") — returns `false` for every record, so the
lookup reports no match regardless of the store contents. -/
def findBookingByBlockchainId (s : Strapi) (_blockchainBookingId : String) :
    List StrapiBooking :=
  s.bookings.filter (fun _ => false)

/-- Embedding of `EventListener.findPropertyByBlockchainId`: filter on
`BlockchainPropertyId`. -/
def findPropertyByBlockchainId (s : Strapi) (pid : String) : List StrapiProperty :=
  s.properties.filter (fun p => p.blockchainPropertyId == pid)

/-- Embedding of `EventListener.findBookingsByPropertyId`: filter on the `property`
relation. -/
def findBookingsByPropertyId (s : Strapi) (strapiPropertyId : Nat) : List StrapiBooking :=
  s.bookings.filter (fun b => b.propertyRel == strapiPropertyId)

/-- The tail of `EventListener.createBookingInStrapi` once the property
record `p` is known (source lines 761–828): the one-booking-per-property
check — if the property already has any booking record, return it — and
otherwise the POST that inserts the new booking record (Strapi assigns the
next record id). -/
def strapiInsertBooking (s : Strapi) (bd : BookingData) (p : StrapiProperty) :
    Strapi × Option StrapiBooking :=
  match findBookingsByPropertyId s p.id with
  | b :: _ => (s, some b)
  | [] =>
    ({ s with
        bookings := s.bookings ++
          [{ id := s.nextId, propertyRel := p.id,
             blockchainBookingId := bd.bookingId, startDate := bd.startDate,
             endDate := bd.endDate, status := bd.status }]
        nextId := s.nextId + 1 },
     some { id := s.nextId, propertyRel := p.id,
            blockchainBookingId := bd.bookingId, startDate := bd.startDate,
            endDate := bd.endDate, status := bd.status })

/-- Embedding of `EventListener.createBookingInStrapi`.  Here `autoSync` mirrors the
`STRAPI_AUTO_SYNC` switch; `recover` abstracts the chain-recovery branch
(lines 730–752: when the property record is missing, the listener tries to
create the property from chain state and re-queries) — every theorem below
runs in a state where the property is already present, so that branch is
never taken.  The flow: (1) ledger-id lookup (the stub above), returning
the first hit; (2) property lookup, with recovery and re-query on a miss,
returning with no record when the property is still absent; (3) the
one-booking-per-property check and insert, `strapiInsertBooking`. -/
def createBookingInStrapi (autoSync : Bool) (recover : Strapi → String → Strapi)
    (s : Strapi) (bd : BookingData) : Strapi × Option StrapiBooking :=
  if autoSync = false then (s, none)
  else
    match findBookingByBlockchainId s bd.bookingId with
    | b :: _ => (s, some b)
    | [] =>
      match findPropertyByBlockchainId s bd.propertyId with
      | p :: _ => strapiInsertBooking s bd p
      | [] =>
        match findPropertyByBlockchainId (recover s bd.propertyId) bd.propertyId with
        | p :: _ => strapiInsertBooking (recover s bd.propertyId) bd p
        | [] => (recover s bd.propertyId, none)

/-! ## Concrete scenario data (used by witnesses and counterexamples) -/

/-- A one-property marketplace: property `"p"` is active with host `1`. -/
def props1 : String → PropInfo := fun pid => if pid == "p" then ⟨1, true⟩ else ⟨0, false⟩

/-- A freshly deployed manager with owner `9` and treasury `8`. -/
def s0 : BMState := ⟨[], 9, 8⟩

/-- Booking 1 as `createBooking` stores it: guest `2` books `"p"` from day 2
to day 5 (3 nights) for 1000 units at fee rate 30 (3%). -/
def bk1Active : Booking :=
  { bookingId := 1, propertyId := "p", guest := 2, host := 1, checkInDate := 172800,
    checkOutDate := 432000, totalAmount := 1000, platformFee := 30, hostAmount := 970,
    status := .Active, checkInWindowStart := 0, checkInDeadline := 0,
    disputeDeadline := 0, isCheckInComplete := false, isResolvedByHost := false,
    isResolvedByGuest := false, disputeReason := "", bookingURI := "",
    paymentReference := "", paidOffChain := false }

/-- Booking 1 after `triggerCheckInWindow` at the check-in date. -/
def bk1Ready : Booking :=
  { bk1Active with
      status := .CheckInReady
      checkInWindowStart := 172800
      checkInDeadline := 259200 }

/-- Booking 1 after `processMissedCheckIn` one second past the deadline. -/
def bk1Disputed : Booking :=
  { bk1Ready with
      status := .Disputed
      disputeDeadline := 345601
      disputeReason := "Missed check-in" }

/-- Booking 1 after the host alone resolved the dispute. -/
def bk1HostResolved : Booking := { bk1Disputed with isResolvedByHost := true }

/-- Booking 1 after both parties resolved (auto-completed). -/
def bk1Completed : Booking :=
  { bk1HostResolved with isResolvedByGuest := true, status := .Completed }

/-- Booking 1 after escalation to the admin. -/
def bk1Escalated : Booking := { bk1HostResolved with status := .EscalatedToAdmin }

/-- A back-to-back booking: guest `3` books `"p"` for the night starting
exactly at booking 1's check-out. -/
def bk2Active : Booking :=
  { bookingId := 2, propertyId := "p", guest := 3, host := 1, checkInDate := 432000,
    checkOutDate := 518400, totalAmount := 500, platformFee := 15, hostAmount := 485,
    status := .Active, checkInWindowStart := 0, checkInDeadline := 0,
    disputeDeadline := 0, isCheckInComplete := false, isResolvedByHost := false,
    isResolvedByGuest := false, disputeReason := "", bookingURI := "",
    paymentReference := "", paidOffChain := false }

/-- Manager states along the scenario. -/
def sActive : BMState := ⟨[bk1Active], 9, 8⟩

/-- State with booking 1 in `CheckInReady`. -/
def sReady : BMState := ⟨[bk1Ready], 9, 8⟩

/-- State with booking 1 in `Disputed`. -/
def sDisputed : BMState := ⟨[bk1Disputed], 9, 8⟩

/-- State with booking 1 disputed and host-resolved only. -/
def sHostResolved : BMState := ⟨[bk1HostResolved], 9, 8⟩

/-- State with booking 1 completed by dual consent. -/
def sCompleted : BMState := ⟨[bk1Completed], 9, 8⟩

/-- State with booking 1 escalated to the admin. -/
def sEscalated : BMState := ⟨[bk1Escalated], 9, 8⟩

/-- State holding booking 1 and the back-to-back booking 2. -/
def sTwo : BMState := ⟨[bk1Active, bk2Active], 9, 8⟩

/-- Booking 1 after the guest cancelled before check-in. -/
def bk1Cancelled : Booking := { bk1Active with status := .Cancelled }

/-- State with booking 1 cancelled. -/
def sCancelled : BMState := ⟨[bk1Cancelled], 9, 8⟩

/-- A booking on the same dates as booking 1, created after booking 1 was
cancelled (cancelled bookings do not block the dates). -/
def bk2Overlap : Booking :=
  { bookingId := 2, propertyId := "p", guest := 3, host := 1, checkInDate := 172800,
    checkOutDate := 432000, totalAmount := 777, platformFee := 23, hostAmount := 754,
    status := .Active, checkInWindowStart := 0, checkInDeadline := 0,
    disputeDeadline := 0, isCheckInComplete := false, isResolvedByHost := false,
    isResolvedByGuest := false, disputeReason := "", bookingURI := "",
    paymentReference := "", paidOffChain := false }

/-- State with the cancelled booking 1 and the overlapping booking 2. -/
def sCancelledTwo : BMState := ⟨[bk1Cancelled, bk2Overlap], 9, 8⟩

/-- A booking whose stay length (86401 s) is more than a day but not an
exact multiple of a day; the contract accepts it. -/
def bk1Odd : Booking :=
  { bookingId := 1, propertyId := "p", guest := 2, host := 1, checkInDate := 1,
    checkOutDate := 86402, totalAmount := 1000, platformFee := 30, hostAmount := 970,
    status := .Active, checkInWindowStart := 0, checkInDeadline := 0,
    disputeDeadline := 0, isCheckInComplete := false, isResolvedByHost := false,
    isResolvedByGuest := false, disputeReason := "", bookingURI := "",
    paymentReference := "", paidOffChain := false }

/-- State holding the odd-length booking. -/
def sOdd : BMState := ⟨[bk1Odd], 9, 8⟩

/-- A disputed booking 1 on which both parties set their flag (used only to
exercise the `AlreadyResolved` guard of `escalateDispute`). -/
def bk1BothResolved : Booking :=
  { bk1Disputed with isResolvedByHost := true, isResolvedByGuest := true }

/-- State holding that doubly-resolved disputed booking. -/
def sBothResolved : BMState := ⟨[bk1BothResolved], 9, 8⟩

/-- The escalated booking 1 with off-chain payment (fiat path). -/
def bk1EscalatedOff : Booking := { bk1Escalated with paidOffChain := true }

/-- State holding the escalated off-chain-paid booking. -/
def sEscalatedOff : BMState := ⟨[bk1EscalatedOff], 9, 8⟩

/-- Booking 1 as `createBookingPaid` stores it (externally settled). -/
def bk1Paid : Booking :=
  { bk1Active with paymentReference := "rev-1", paidOffChain := true }

/-- State holding the externally-paid booking. -/
def sPaid : BMState := ⟨[bk1Paid], 9, 8⟩

/-- A ledger event whose handler will fail in the demo. -/
def evFail : Ev := ⟨"0xa", "Fail", "[]", 3, 0⟩

/-- A ledger event whose handler will succeed in the demo. -/
def evOk : Ev := ⟨"0xb", "Ok", "[]", 5, 0⟩

/-- Demo dispatch table: every event name has a handler. -/
def hasHAll : String → Bool := fun _ => true

/-- Demo handler over a `List String` projection: throws (returns `none`)
on events named `"Fail"`, otherwise appends the event name. -/
def handlerDemo : Ev → List String → Option (List String) :=
  fun e p => if e.name == "Fail" then none else some (p ++ [e.name])

/-- Fresh listener state for the demo. -/
def l0 : ListenerState (List String) := ⟨[], [], 0, [], []⟩

/-- Listener state after `evOk` was processed and committed. -/
def l1 : ListenerState (List String) := ⟨[eventId evOk], [], 0, ["Ok"], [evOk]⟩

/-- Listener state in which `evOk` is currently in-flight (a concurrent
delivery is mid-processing). -/
def lInflight : ListenerState (List String) := ⟨[], [eventId evOk], 0, [], []⟩

/-- A Strapi property record for ledger property `"p"`. -/
def spX : StrapiProperty := ⟨1, "p"⟩

/-- A Strapi booking record for ledger booking `"1"` on that property. -/
def sbX : StrapiBooking := ⟨5, 1, "1", 172800, 432000, "Active"⟩

/-- Projection already holding the booking record for ledger booking `"1"`. -/
def strapiX : Strapi := ⟨[spX], [sbX], 6⟩

/-- Projection with the property present and no bookings yet. -/
def strapiEmpty : Strapi := ⟨[spX], [], 5⟩

/-- Handler payload for ledger booking `"1"`. -/
def bdX : BookingData := ⟨"1", "p", 172800, 432000, "Active"⟩

/-- Handler payload for a second, non-overlapping ledger booking `"2"` on
the same property. -/
def bd2X : BookingData := ⟨"2", "p", 432000, 518400, "Active"⟩

/-- A no-op chain-recovery function for the demo. -/
def recover0 : Strapi → String → Strapi := fun s _ => s

/-- The store after Strapi inserts booking record `nb`: the record is
appended and the next record id advances. -/
def strapiAfterInsert (s : Strapi) (nb : StrapiBooking) : Strapi :=
  { s with
      bookings := s.bookings ++ [nb]
      nextId := s.nextId + 1 }

/-! ## Helper lemmas -/

theorem isCancelledOrRefunded_eq_false {st : BookingStatus} :
    isCancelledOrRefunded st = false ↔ st ≠ .Cancelled ∧ st ≠ .Refunded := by
  cases st <;> simp [isCancelledOrRefunded]

theorem isCancelledOrRefunded_eq_true {st : BookingStatus} :
    isCancelledOrRefunded st = true ↔ st = .Cancelled ∨ st = .Refunded := by
  cases st <;> simp [isCancelledOrRefunded]

theorem hasBookingConflict_iff {s : BMState} {pid : String} {inD outD : Nat} :
    hasBookingConflict s pid inD outD = true ↔
      ∃ b ∈ s.bookings, b.propertyId = pid ∧ b.status ≠ .Cancelled ∧
        b.status ≠ .Refunded ∧ inD < b.checkOutDate ∧ outD > b.checkInDate := by
  simp only [hasBookingConflict, List.any_eq_true, Bool.and_eq_true, beq_iff_eq,
    Bool.not_eq_true', Bool.or_eq_false_iff, beq_eq_false_iff_ne, ne_eq,
    decide_eq_true_eq]
  constructor
  · rintro ⟨b, hb, ⟨⟨hp, hc, hr⟩, h1⟩, h2⟩
    exact ⟨b, hb, hp, hc, hr, h1, h2⟩
  · rintro ⟨b, hb, hp, hc, hr, h1, h2⟩
    exact ⟨b, hb, ⟨⟨hp, hc, hr⟩, h1⟩, h2⟩

theorem hasBookingConflict_eq_false {s : BMState} {pid : String} {inD outD : Nat} :
    hasBookingConflict s pid inD outD = false ↔
      ∀ b ∈ s.bookings, b.propertyId = pid → b.status ≠ .Cancelled →
        b.status ≠ .Refunded → ¬(inD < b.checkOutDate ∧ outD > b.checkInDate) := by
  rw [← Bool.not_eq_true, hasBookingConflict_iff]
  constructor
  · intro h b hb hp hc hr hov
    exact h ⟨b, hb, hp, hc, hr, hov.1, hov.2⟩
  · rintro h ⟨b, hb, hp, hc, hr, h1, h2⟩
    exact h b hb hp hc hr ⟨h1, h2⟩

theorem find?_append_of_some {l l2 : List Booking} {p : Booking → Bool} {b : Booking}
    (h : l.find? p = some b) : (l ++ l2).find? p = some b := by
  induction l with
  | nil => simp [List.find?] at h
  | cons a t ih =>
    rw [List.cons_append]
    rw [List.find?_cons] at h ⊢
    cases hpa : p a with
    | true => simpa [hpa] using h
    | false =>
      simp only [hpa] at h ⊢
      exact ih h

theorem find?_append_of_none {l l2 : List Booking} {p : Booking → Bool}
    (h : l.find? p = none) : (l ++ l2).find? p = l2.find? p := by
  induction l with
  | nil => simp
  | cons a t ih =>
    rw [List.find?_cons] at h
    cases hpa : p a with
    | true => simp [hpa] at h
    | false =>
      simp only [hpa] at h
      rw [List.cons_append, List.find?_cons]
      simp only [hpa]
      exact ih h

theorem find?_id_map {l : List Booking} {f : Booking → Booking} {q : Nat}
    (hf : ∀ b, (f b).bookingId = b.bookingId) :
    (l.map f).find? (fun b => b.bookingId == q) =
      (l.find? (fun b => b.bookingId == q)).map f := by
  induction l with
  | nil => rfl
  | cons b t ih =>
    rw [List.map_cons, List.find?_cons, List.find?_cons]
    cases hbq : (b.bookingId == q) with
    | true => simp [hf, hbq]
    | false => simp [hf, hbq, ih]

theorem getBooking_setBooking {s : BMState} {bid : Nat} {u : Booking → Booking} {q : Nat}
    (hu : ∀ b, (u b).bookingId = b.bookingId) :
    getBooking (setBooking s bid u) q =
      match s.bookings.find? (fun b => b.bookingId == q) with
      | some b => if b.bookingId == bid then u b else b
      | none => zeroBooking := by
  have hf : ∀ b : Booking,
      ((fun b => if b.bookingId == bid then u b else b) b).bookingId = b.bookingId := by
    intro b
    by_cases h : (b.bookingId == bid) = true <;> simp [h, hu]
  unfold getBooking setBooking
  rw [find?_id_map hf]
  cases hfind : s.bookings.find? (fun b => b.bookingId == q) <;> simp

theorem getBooking_append {s : BMState} {nb : Booking} {q : Nat} :
    getBooking { s with bookings := s.bookings ++ [nb] } q =
      match s.bookings.find? (fun b => b.bookingId == q) with
      | some b => b
      | none => if nb.bookingId == q then nb else zeroBooking := by
  unfold getBooking
  cases hfind : s.bookings.find? (fun b => b.bookingId == q) with
  | some b => simp [find?_append_of_some hfind]
  | none =>
    rw [show ({ s with bookings := s.bookings ++ [nb] } : BMState).bookings
          = s.bookings ++ [nb] from rfl, find?_append_of_none hfind]
    cases hq : (nb.bookingId == q) <;> simp [List.find?, hq]

theorem wf_unique {s : BMState} (hwf : IdsWellFormed s) {x y : Booking}
    (hx : x ∈ s.bookings) (hy : y ∈ s.bookings) (he : x.bookingId = y.bookingId) :
    x = y := by
  obtain ⟨i, hix⟩ := List.mem_iff_get.mp hx
  obtain ⟨j, hjy⟩ := List.mem_iff_get.mp hy
  have hxi := hwf i.1 i.2
  have hyj := hwf j.1 j.2
  rw [hix] at hxi
  rw [hjy] at hyj
  have : i.1 = j.1 := by omega
  rw [← hix, ← hjy]
  congr 1
  exact Fin.ext this

theorem wf_getBooking_of_mem {s : BMState} (hwf : IdsWellFormed s) {b : Booking}
    (hb : b ∈ s.bookings) : getBooking s b.bookingId = b := by
  have hsome : (s.bookings.find? (fun c => c.bookingId == b.bookingId)).isSome := by
    rw [List.find?_isSome]
    exact ⟨b, hb, by simp⟩
  obtain ⟨x, hx⟩ := Option.isSome_iff_exists.mp hsome
  have hmem := List.mem_of_find?_eq_some hx
  have hpx : x.bookingId = b.bookingId := by simpa using List.find?_some hx
  have hxb : x = b := wf_unique hwf hmem hb hpx
  unfold getBooking
  rw [hx, hxb]
  rfl

theorem wf_not_mem_id {s : BMState} (hwf : IdsWellFormed s) {b : Booking} {bid : Nat}
    (hb : b ∈ s.bookings) (hbid : b.bookingId = bid) : b = getBooking s bid := by
  rw [← hbid, wf_getBooking_of_mem hwf hb]

theorem idsWF_map {l : List Booking} {f : Booking → Booking}
    (hf : ∀ b, (f b).bookingId = b.bookingId)
    (h : ∀ i, ∀ hi : i < l.length, (l.get ⟨i, hi⟩).bookingId = i + 1) :
    ∀ i, ∀ hi : i < (l.map f).length, ((l.map f).get ⟨i, hi⟩).bookingId = i + 1 := by
  intro i hi
  have hi' : i < l.length := by simpa using hi
  have hg : (l.map f).get ⟨i, hi⟩ = f (l.get ⟨i, hi'⟩) := by
    simp [List.get_eq_getElem]
  rw [hg, hf]
  exact h i hi'

theorem idsWF_append {l : List Booking} {nb : Booking}
    (h : ∀ i, ∀ hi : i < l.length, (l.get ⟨i, hi⟩).bookingId = i + 1)
    (hnb : nb.bookingId = l.length + 1) :
    ∀ i, ∀ hi : i < (l ++ [nb]).length, ((l ++ [nb]).get ⟨i, hi⟩).bookingId = i + 1 := by
  intro i hi
  have hlen : (l ++ [nb]).length = l.length + 1 := by simp
  by_cases hlt : i < l.length
  · have hg : (l ++ [nb]).get ⟨i, hi⟩ = l.get ⟨i, hlt⟩ := by
      simp [List.get_eq_getElem, List.getElem_append_left hlt]
    rw [hg]
    exact h i hlt
  · have hieq : i = l.length := by
      rw [hlen] at hi
      omega
    have hg : (l ++ [nb]).get ⟨i, hi⟩ = nb := by
      subst hieq
      simp [List.get_eq_getElem]
    rw [hg, hnb, hieq]

theorem inv_setBooking {s : BMState} {bid : Nat} {u : Booking → Booking}
    (hinv : Inv s)
    (hid : ∀ b, (u b).bookingId = b.bookingId)
    (hpid : ∀ b, (u b).propertyId = b.propertyId)
    (hin : ∀ b, (u b).checkInDate = b.checkInDate)
    (hout : ∀ b, (u b).checkOutDate = b.checkOutDate)
    (hfee : ∀ b, (u b).platformFee = b.platformFee)
    (hhost : ∀ b, (u b).hostAmount = b.hostAmount)
    (htot : ∀ b, (u b).totalAmount = b.totalAmount)
    (hguard : isCancelledOrRefunded (getBooking s bid).status = false) :
    Inv (setBooking s bid u) := by
  obtain ⟨hwf, haof, hfc⟩ := hinv
  set f : Booking → Booking := fun b => if b.bookingId == bid then u b else b with hfdef
  have hfield : ∀ {α : Type} (g : Booking → α), (∀ b, g (u b) = g b) →
      ∀ b, g (f b) = g b := by
    intro α g hg b
    by_cases h : b.bookingId = bid <;> simp [hfdef, h, hg]
  have hfid : ∀ b, (f b).bookingId = b.bookingId := hfield (fun b => b.bookingId) hid
  have hfpid : ∀ b, (f b).propertyId = b.propertyId := hfield (fun b => b.propertyId) hpid
  have hfin : ∀ b, (f b).checkInDate = b.checkInDate := hfield (fun b => b.checkInDate) hin
  have hfout : ∀ b, (f b).checkOutDate = b.checkOutDate :=
    hfield (fun b => b.checkOutDate) hout
  have hffee : ∀ b, (f b).platformFee = b.platformFee := hfield (fun b => b.platformFee) hfee
  have hfhost : ∀ b, (f b).hostAmount = b.hostAmount := hfield (fun b => b.hostAmount) hhost
  have hftot : ∀ b, (f b).totalAmount = b.totalAmount := hfield (fun b => b.totalAmount) htot
  have hterm : ∀ b ∈ s.bookings, isCancelledOrRefunded b.status = true → f b = b := by
    intro b hb hbterm
    by_cases h : b.bookingId = bid
    · exfalso
      have := wf_not_mem_id hwf hb h
      rw [← this] at hguard
      rw [hbterm] at hguard
      exact Bool.true_eq_false.mp hguard
    · simp [hfdef, h]
  have hlist : (setBooking s bid u).bookings = s.bookings.map f := rfl
  refine ⟨fun i hi => idsWF_map hfid hwf i hi, ?_, ?_⟩
  · intro b1' hb1 b2' hb2 hne hp h1 h2
    rw [hlist] at hb1 hb2
    obtain ⟨b1, hb1m, rfl⟩ := List.mem_map.mp hb1
    obtain ⟨b2, hb2m, rfl⟩ := List.mem_map.mp hb2
    have hne' : b1.bookingId ≠ b2.bookingId := by
      rw [hfid, hfid] at hne
      exact hne
    have hp' : b1.propertyId = b2.propertyId := by
      rw [hfpid, hfpid] at hp
      exact hp
    rw [hfin, hfout] at h1
    rw [hfin, hfout] at h2
    rcases haof b1 hb1m b2 hb2m hne' hp' h1 h2 with h | h
    · left
      rw [hterm b1 hb1m h]
      exact h
    · right
      rw [hterm b2 hb2m h]
      exact h
  · intro b' hb
    rw [hlist] at hb
    obtain ⟨b, hbm, rfl⟩ := List.mem_map.mp hb
    rw [hffee, hfhost, hftot]
    exact hfc b hbm

theorem inv_append_new {s : BMState} {nb : Booking}
    (hinv : Inv s)
    (hid : nb.bookingId = s.bookings.length + 1)
    (hconf : ∀ b ∈ s.bookings, b.propertyId = nb.propertyId →
      b.status ≠ .Cancelled → b.status ≠ .Refunded →
      ¬(nb.checkInDate < b.checkOutDate ∧ nb.checkOutDate > b.checkInDate))
    (hfee : nb.platformFee + nb.hostAmount = nb.totalAmount) :
    Inv { s with bookings := s.bookings ++ [nb] } := by
  obtain ⟨hwf, haof, hfc⟩ := hinv
  have hmemid : ∀ b ∈ s.bookings, b.bookingId ≤ s.bookings.length := by
    intro b hb
    obtain ⟨i, hib⟩ := List.mem_iff_get.mp hb
    have := hwf i.1 i.2
    rw [hib] at this
    omega
  refine ⟨fun i hi => idsWF_append hwf hid i hi, ?_, ?_⟩
  · intro b1 hb1 b2 hb2 hne hp h1 h2
    rw [show ({ s with bookings := s.bookings ++ [nb] } : BMState).bookings
          = s.bookings ++ [nb] from rfl, List.mem_append, List.mem_singleton] at hb1 hb2
    rcases hb1 with hb1 | rfl <;> rcases hb2 with hb2 | rfl
    · exact haof b1 hb1 b2 hb2 hne hp h1 h2
    · by_cases hterm : isCancelledOrRefunded b1.status = true
      · exact Or.inl hterm
      · exfalso
        rw [Bool.not_eq_true, isCancelledOrRefunded_eq_false] at hterm
        exact hconf b1 hb1 hp hterm.1 hterm.2 ⟨h2, h1⟩
    · by_cases hterm : isCancelledOrRefunded b2.status = true
      · exact Or.inr hterm
      · exfalso
        rw [Bool.not_eq_true, isCancelledOrRefunded_eq_false] at hterm
        exact hconf b2 hb2 hp.symm hterm.1 hterm.2 ⟨h1, h2⟩
    · exact absurd rfl hne
  · intro b hb
    rw [show ({ s with bookings := s.bookings ++ [nb] } : BMState).bookings
          = s.bookings ++ [nb] from rfl, List.mem_append, List.mem_singleton] at hb
    rcases hb with hb | rfl
    · exact hfc b hb
    · exact hfee

theorem createBooking_ok_iff {props : String → PropInfo} {feeRate now caller : Nat}
    {pid : String} {inD outD amt : Nat} {uri : String} {s s' : BMState} {bid : Nat} :
    createBooking props feeRate now caller pid inD outD amt uri s = .ok (s', bid) ↔
      (props pid).isActive = true ∧ (props pid).host ≠ 0 ∧ (props pid).host ≠ caller ∧
      now < inD ∧ inD < outD ∧ hasBookingConflict s pid inD outD = false ∧
      oneDay ≤ outD - inD ∧ amt * feeRate / 1000 ≤ amt ∧
      bid = s.bookings.length + 1 ∧
      s' = { s with bookings := s.bookings ++
        [{ bookingId := s.bookings.length + 1, propertyId := pid, guest := caller,
           host := (props pid).host, checkInDate := inD, checkOutDate := outD,
           totalAmount := amt, platformFee := amt * feeRate / 1000,
           hostAmount := amt - amt * feeRate / 1000, status := .Active,
           checkInWindowStart := 0, checkInDeadline := 0, disputeDeadline := 0,
           isCheckInComplete := false, isResolvedByHost := false,
           isResolvedByGuest := false, disputeReason := "", bookingURI := uri,
           paymentReference := "", paidOffChain := false }] } := by
  unfold createBooking
  split_ifs with h1 h2 h3 h4 h5 h6 h7 h8
  · simp [h1]
  · simp [h2]
  · simp [h3]
  · constructor
    · intro h
      exact absurd h (by simp)
    · rintro ⟨-, -, -, hlt, -⟩
      omega
  · constructor
    · intro h
      exact absurd h (by simp)
    · rintro ⟨-, -, -, -, hlt, -⟩
      omega
  · simp [h6]
  · constructor
    · intro h
      exact absurd h (by simp)
    · rintro ⟨-, -, -, -, -, -, hday, -⟩
      rw [Nat.div_eq_zero_iff (show 0 < oneDay by decide)] at h7
      omega
  · constructor
    · intro h
      exact absurd h (by simp)
    · rintro ⟨-, -, -, -, -, -, -, hfee, -⟩
      omega
  · rw [Bool.not_eq_false] at h1
    rw [Nat.not_le] at h4
    rw [Nat.not_le] at h5
    rw [Bool.not_eq_true] at h6
    rw [Nat.div_eq_zero_iff (show 0 < oneDay by decide), Nat.not_lt] at h7
    rw [Nat.not_lt] at h8
    simp only [Except.ok.injEq, Prod.mk.injEq]
    constructor
    · rintro ⟨rfl, rfl⟩
      exact ⟨h1, h2, h3, h4, h5, h6, h7, h8, rfl, rfl⟩
    · rintro ⟨-, -, -, -, -, -, -, -, rfl, rfl⟩
      exact ⟨rfl, rfl⟩

theorem createBookingPaid_ok_iff {props : String → PropInfo} {feeRate now caller : Nat}
    {pid : String} {inD outD amt : Nat} {payRef uri : String} {s s' : BMState} {bid : Nat} :
    createBookingPaid props feeRate now caller pid inD outD amt payRef uri s
        = .ok (s', bid) ↔
      (props pid).isActive = true ∧ (props pid).host ≠ 0 ∧
      now < inD ∧ inD < outD ∧ hasBookingConflict s pid inD outD = false ∧
      oneDay ≤ outD - inD ∧ amt * feeRate / 1000 ≤ amt ∧
      bid = s.bookings.length + 1 ∧
      s' = { s with bookings := s.bookings ++
        [{ bookingId := s.bookings.length + 1, propertyId := pid, guest := caller,
           host := (props pid).host, checkInDate := inD, checkOutDate := outD,
           totalAmount := amt, platformFee := amt * feeRate / 1000,
           hostAmount := amt - amt * feeRate / 1000, status := .Active,
           checkInWindowStart := 0, checkInDeadline := 0, disputeDeadline := 0,
           isCheckInComplete := false, isResolvedByHost := false,
           isResolvedByGuest := false, disputeReason := "", bookingURI := uri,
           paymentReference := payRef, paidOffChain := true }] } := by
  unfold createBookingPaid
  split_ifs with h1 h2 h3 h4 h5 h6 h7
  · simp [h1]
  · simp [h2]
  · constructor
    · intro h
      exact absurd h (by simp)
    · rintro ⟨-, -, hlt, -⟩
      omega
  · constructor
    · intro h
      exact absurd h (by simp)
    · rintro ⟨-, -, -, hlt, -⟩
      omega
  · simp [h5]
  · constructor
    · intro h
      exact absurd h (by simp)
    · rintro ⟨-, -, -, -, -, hday, -⟩
      rw [Nat.div_eq_zero_iff (show 0 < oneDay by decide)] at h6
      omega
  · constructor
    · intro h
      exact absurd h (by simp)
    · rintro ⟨-, -, -, -, -, -, hfee, -⟩
      omega
  · rw [Bool.not_eq_false] at h1
    rw [Nat.not_le] at h3
    rw [Nat.not_le] at h4
    rw [Bool.not_eq_true] at h5
    rw [Nat.div_eq_zero_iff (show 0 < oneDay by decide), Nat.not_lt] at h6
    rw [Nat.not_lt] at h7
    simp only [Except.ok.injEq, Prod.mk.injEq]
    constructor
    · rintro ⟨rfl, rfl⟩
      exact ⟨h1, h2, h3, h4, h5, h6, h7, rfl, rfl⟩
    · rintro ⟨-, -, -, -, -, -, -, rfl, rfl⟩
      exact ⟨rfl, rfl⟩

theorem triggerCheckInWindow_ok_iff {now bid : Nat} {s s' : BMState} :
    triggerCheckInWindow now bid s = .ok s' ↔
      (getBooking s bid).bookingId = bid ∧ (getBooking s bid).status = .Active ∧
      (getBooking s bid).checkInDate ≤ now ∧ (getBooking s bid).checkInWindowStart = 0 ∧
      s' = setBooking s bid (fun bk =>
        { bk with
            checkInWindowStart := now
            checkInDeadline := now + checkInWindowLen
            status := .CheckInReady }) := by
  unfold triggerCheckInWindow
  split_ifs with h1 h2 h3 h4
  · simp [h1]
  · simp [h2]
  · constructor
    · intro h
      exact absurd h (by simp)
    · rintro ⟨-, -, hle, -⟩
      omega
  · simp [h4]
  · rw [not_not] at h1 h2 h4
    rw [Nat.not_lt] at h3
    simp only [Except.ok.injEq]
    constructor
    · rintro rfl
      exact ⟨h1, h2, h3, h4, rfl⟩
    · rintro ⟨-, -, -, -, rfl⟩
      rfl

theorem checkIn_ok_iff {now caller bid : Nat} {s s' : BMState} :
    checkIn now caller bid s = .ok s' ↔
      (getBooking s bid).guest = caller ∧ (getBooking s bid).status = .CheckInReady ∧
      now ≤ (getBooking s bid).checkInDeadline ∧
      s' = setBooking s bid (fun bk =>
        { bk with status := .CheckedIn, isCheckInComplete := true }) := by
  unfold checkIn
  split_ifs with h1 h2 h3
  · simp [h1]
  · simp [h2]
  · constructor
    · intro h
      exact absurd h (by simp)
    · rintro ⟨-, -, hle, -⟩
      omega
  · rw [not_not] at h1 h2
    rw [Nat.not_lt] at h3
    simp only [Except.ok.injEq]
    constructor
    · rintro rfl
      exact ⟨h1, h2, h3, rfl⟩
    · rintro ⟨-, -, -, rfl⟩
      rfl

theorem processMissedCheckIn_ok_iff {now bid : Nat} {s s' : BMState} :
    processMissedCheckIn now bid s = .ok s' ↔
      (getBooking s bid).status = .CheckInReady ∧
      (getBooking s bid).checkInDeadline < now ∧
      s' = setBooking s bid (fun bk =>
        { bk with
            status := .Disputed
            disputeDeadline := now + disputeWindowLen
            disputeReason := "Missed check-in" }) := by
  unfold processMissedCheckIn
  split_ifs with h1 h2
  · simp [h1]
  · constructor
    · intro h
      exact absurd h (by simp)
    · rintro ⟨-, hlt, -⟩
      omega
  · rw [not_not] at h1
    rw [Nat.not_le] at h2
    simp only [Except.ok.injEq]
    constructor
    · rintro rfl
      exact ⟨h1, h2, rfl⟩
    · rintro ⟨-, -, rfl⟩
      rfl

theorem hostResolveDispute_ok_iff {now caller bid : Nat} {s s' : BMState}
    {tr : List Transfer} :
    hostResolveDispute now caller bid s = .ok (s', tr) ↔
      (getBooking s bid).host = caller ∧ (getBooking s bid).status = .Disputed ∧
      now ≤ (getBooking s bid).disputeDeadline ∧
      s' = setBooking s bid (fun bk =>
        if bk.isResolvedByGuest then
          { bk with isResolvedByHost := true, status := .Completed }
        else { bk with isResolvedByHost := true }) ∧
      tr = (if (getBooking s bid).isResolvedByGuest then
              completeTransfers s.treasury (getBooking s bid)
            else []) := by
  unfold hostResolveDispute
  by_cases h1 : (getBooking s bid).host ≠ caller
  · rw [if_pos h1]
    simp [h1]
  · rw [if_neg h1]
    by_cases h2 : (getBooking s bid).status ≠ .Disputed
    · rw [if_pos h2]
      simp [h2]
    · rw [if_neg h2]
      by_cases h3 : (getBooking s bid).disputeDeadline < now
      · rw [if_pos h3]
        constructor
        · intro h
          exact absurd h (by simp)
        · rintro ⟨-, -, hle, -⟩
          omega
      · rw [if_neg h3]
        simp only [Except.ok.injEq, Prod.mk.injEq]
        constructor
        · rintro ⟨rfl, rfl⟩
          exact ⟨not_not.mp h1, not_not.mp h2, Nat.not_lt.mp h3, rfl, rfl⟩
        · rintro ⟨-, -, -, rfl, rfl⟩
          exact ⟨rfl, rfl⟩

theorem guestResolveDispute_ok_iff {now caller bid : Nat} {s s' : BMState}
    {tr : List Transfer} :
    guestResolveDispute now caller bid s = .ok (s', tr) ↔
      (getBooking s bid).guest = caller ∧ (getBooking s bid).status = .Disputed ∧
      now ≤ (getBooking s bid).disputeDeadline ∧
      s' = setBooking s bid (fun bk =>
        if bk.isResolvedByHost then
          { bk with isResolvedByGuest := true, status := .Completed }
        else { bk with isResolvedByGuest := true }) ∧
      tr = (if (getBooking s bid).isResolvedByHost then
              completeTransfers s.treasury (getBooking s bid)
            else []) := by
  unfold guestResolveDispute
  by_cases h1 : (getBooking s bid).guest ≠ caller
  · rw [if_pos h1]
    simp [h1]
  · rw [if_neg h1]
    by_cases h2 : (getBooking s bid).status ≠ .Disputed
    · rw [if_pos h2]
      simp [h2]
    · rw [if_neg h2]
      by_cases h3 : (getBooking s bid).disputeDeadline < now
      · rw [if_pos h3]
        constructor
        · intro h
          exact absurd h (by simp)
        · rintro ⟨-, -, hle, -⟩
          omega
      · rw [if_neg h3]
        simp only [Except.ok.injEq, Prod.mk.injEq]
        constructor
        · rintro ⟨rfl, rfl⟩
          exact ⟨not_not.mp h1, not_not.mp h2, Nat.not_lt.mp h3, rfl, rfl⟩
        · rintro ⟨-, -, -, rfl, rfl⟩
          exact ⟨rfl, rfl⟩

theorem escalateDispute_ok_iff {now bid : Nat} {s s' : BMState} :
    escalateDispute now bid s = .ok s' ↔
      (getBooking s bid).status = .Disputed ∧
      (getBooking s bid).disputeDeadline < now ∧
      ¬((getBooking s bid).isResolvedByHost = true ∧
        (getBooking s bid).isResolvedByGuest = true) ∧
      s' = setBooking s bid (fun bk => { bk with status := .EscalatedToAdmin }) := by
  unfold escalateDispute
  split_ifs with h1 h2 h3
  · simp [h1]
  · constructor
    · intro h
      exact absurd h (by simp)
    · rintro ⟨-, hlt, -⟩
      omega
  · rw [Bool.and_eq_true] at h3
    simp only [not_not] at h1
    constructor
    · intro h
      exact absurd h (by simp)
    · rintro ⟨-, -, hres, -⟩
      exact hres h3
  · rw [not_not] at h1
    rw [Nat.not_le] at h2
    rw [Bool.and_eq_true] at h3
    simp only [Except.ok.injEq]
    constructor
    · rintro rfl
      exact ⟨h1, h2, h3, rfl⟩
    · rintro ⟨-, -, -, rfl⟩
      rfl

theorem adminResolveDispute_ok_iff {caller bid pct : Nat} {s s' : BMState}
    {tr : List Transfer} :
    adminResolveDispute caller bid pct s = .ok (s', tr) ↔
      caller = s.owner ∧ (getBooking s bid).status = .EscalatedToAdmin ∧ pct ≤ 100 ∧
      s' = setBooking s bid (fun bk =>
        { bk with status := if pct = 100 then .Refunded else .Completed }) ∧
      tr = (if (getBooking s bid).paidOffChain then []
            else
              (if 0 < (getBooking s bid).hostAmount * pct / 100 then
                [⟨(getBooking s bid).guest, (getBooking s bid).hostAmount * pct / 100⟩]
               else []) ++
              (if 0 < (getBooking s bid).hostAmount
                      - (getBooking s bid).hostAmount * pct / 100 then
                [⟨(getBooking s bid).host,
                  (getBooking s bid).hostAmount
                    - (getBooking s bid).hostAmount * pct / 100⟩]
               else []) ++
              [⟨s.treasury, (getBooking s bid).platformFee⟩]) := by
  unfold adminResolveDispute
  by_cases h1 : caller ≠ s.owner
  · rw [if_pos h1]
    simp [h1]
  · rw [if_neg h1]
    by_cases h2 : (getBooking s bid).status ≠ .EscalatedToAdmin
    · rw [if_pos h2]
      simp [h2]
    · rw [if_neg h2]
      by_cases h3 : 100 < pct
      · rw [if_pos h3]
        constructor
        · intro h
          exact absurd h (by simp)
        · rintro ⟨-, -, hle, -⟩
          omega
      · rw [if_neg h3]
        by_cases h4 : (getBooking s bid).paidOffChain = true
        · rw [if_pos h4]
          simp only [Except.ok.injEq, Prod.mk.injEq, h4, if_true]
          constructor
          · rintro ⟨rfl, rfl⟩
            exact ⟨not_not.mp h1, not_not.mp h2, Nat.not_lt.mp h3, rfl, rfl⟩
          · rintro ⟨-, -, -, rfl, rfl⟩
            exact ⟨rfl, rfl⟩
        · rw [if_neg h4]
          simp only [Except.ok.injEq, Prod.mk.injEq, h4, if_false]
          constructor
          · rintro ⟨rfl, rfl⟩
            exact ⟨not_not.mp h1, not_not.mp h2, Nat.not_lt.mp h3, rfl, rfl⟩
          · rintro ⟨-, -, -, rfl, rfl⟩
            exact ⟨rfl, rfl⟩

theorem cancelBooking_ok_iff {now caller bid : Nat} {s s' : BMState}
    {tr : List Transfer} :
    cancelBooking now caller bid s = .ok (s', tr) ↔
      (getBooking s bid).guest = caller ∧ (getBooking s bid).status = .Active ∧
      now < (getBooking s bid).checkInDate ∧
      s' = setBooking s bid (fun bk => { bk with status := .Cancelled }) ∧
      tr = (if (getBooking s bid).paidOffChain then []
            else [⟨(getBooking s bid).guest, (getBooking s bid).hostAmount⟩,
                  ⟨s.treasury, (getBooking s bid).platformFee⟩]) := by
  unfold cancelBooking
  by_cases h1 : (getBooking s bid).guest ≠ caller
  · rw [if_pos h1]
    simp [h1]
  · rw [if_neg h1]
    by_cases h2 : (getBooking s bid).status ≠ .Active
    · rw [if_pos h2]
      simp [h2]
    · rw [if_neg h2]
      by_cases h3 : (getBooking s bid).checkInDate ≤ now
      · rw [if_pos h3]
        constructor
        · intro h
          exact absurd h (by simp)
        · rintro ⟨-, -, hlt, -⟩
          omega
      · rw [if_neg h3]
        simp only [Except.ok.injEq, Prod.mk.injEq]
        constructor
        · rintro ⟨rfl, rfl⟩
          exact ⟨not_not.mp h1, not_not.mp h2, Nat.not_le.mp h3, rfl, rfl⟩
        · rintro ⟨-, -, -, rfl, rfl⟩
          exact ⟨rfl, rfl⟩

theorem setTreasury_ok_iff {caller t : Nat} {s s' : BMState} :
    setTreasury caller t s = .ok s' ↔
      caller = s.owner ∧ t ≠ 0 ∧ s' = { s with treasury := t } := by
  unfold setTreasury
  split_ifs with h1 h2
  · simp [h1]
  · simp [h2]
  · rw [not_not] at h1
    simp only [Except.ok.injEq]
    constructor
    · rintro rfl
      exact ⟨h1, h2, rfl⟩
    · rintro ⟨-, -, rfl⟩
      rfl

theorem inv_init (owner treasury : Nat) : Inv ⟨[], owner, treasury⟩ := by
  refine ⟨?_, ?_, ?_⟩
  · intro i hi
    exact absurd hi (by simp)
  · intro b1 hb1
    exact absurd hb1 (by simp)
  · intro b hb
    exact absurd hb (by simp)

theorem inv_step {s s' : BMState} (hs : Step s s') (hinv : Inv s) : Inv s' := by
  cases hs with
  | create props feeRate now caller pid inD outD amt uri s1 s2 bid h =>
    obtain ⟨-, -, -, -, -, hconf, -, hfeeLe, -, rfl⟩ := createBooking_ok_iff.mp h
    exact inv_append_new hinv rfl
      (fun b hb hp hc hr hov => hasBookingConflict_eq_false.mp hconf b hb hp hc hr hov)
      (Nat.add_sub_cancel' hfeeLe)
  | createPaid props feeRate now caller pid inD outD amt payRef uri s1 s2 bid h =>
    obtain ⟨-, -, -, -, hconf, -, hfeeLe, -, rfl⟩ := createBookingPaid_ok_iff.mp h
    exact inv_append_new hinv rfl
      (fun b hb hp hc hr hov => hasBookingConflict_eq_false.mp hconf b hb hp hc hr hov)
      (Nat.add_sub_cancel' hfeeLe)
  | trigger now bid s1 s2 h =>
    obtain ⟨-, hstat, -, -, rfl⟩ := triggerCheckInWindow_ok_iff.mp h
    exact inv_setBooking hinv (fun b => rfl) (fun b => rfl) (fun b => rfl) (fun b => rfl)
      (fun b => rfl) (fun b => rfl) (fun b => rfl) (by rw [hstat]; rfl)
  | doCheckIn now caller bid s1 s2 h =>
    obtain ⟨-, hstat, -, rfl⟩ := checkIn_ok_iff.mp h
    exact inv_setBooking hinv (fun b => rfl) (fun b => rfl) (fun b => rfl) (fun b => rfl)
      (fun b => rfl) (fun b => rfl) (fun b => rfl) (by rw [hstat]; rfl)
  | missed now bid s1 s2 h =>
    obtain ⟨hstat, -, rfl⟩ := processMissedCheckIn_ok_iff.mp h
    exact inv_setBooking hinv (fun b => rfl) (fun b => rfl) (fun b => rfl) (fun b => rfl)
      (fun b => rfl) (fun b => rfl) (fun b => rfl) (by rw [hstat]; rfl)
  | hostResolve now caller bid s1 s2 tr h =>
    obtain ⟨-, hstat, -, rfl, -⟩ := hostResolveDispute_ok_iff.mp h
    exact inv_setBooking hinv
      (fun b => by by_cases hg : b.isResolvedByGuest = true <;> simp [hg])
      (fun b => by by_cases hg : b.isResolvedByGuest = true <;> simp [hg])
      (fun b => by by_cases hg : b.isResolvedByGuest = true <;> simp [hg])
      (fun b => by by_cases hg : b.isResolvedByGuest = true <;> simp [hg])
      (fun b => by by_cases hg : b.isResolvedByGuest = true <;> simp [hg])
      (fun b => by by_cases hg : b.isResolvedByGuest = true <;> simp [hg])
      (fun b => by by_cases hg : b.isResolvedByGuest = true <;> simp [hg])
      (by rw [hstat]; rfl)
  | guestResolve now caller bid s1 s2 tr h =>
    obtain ⟨-, hstat, -, rfl, -⟩ := guestResolveDispute_ok_iff.mp h
    exact inv_setBooking hinv
      (fun b => by by_cases hh : b.isResolvedByHost = true <;> simp [hh])
      (fun b => by by_cases hh : b.isResolvedByHost = true <;> simp [hh])
      (fun b => by by_cases hh : b.isResolvedByHost = true <;> simp [hh])
      (fun b => by by_cases hh : b.isResolvedByHost = true <;> simp [hh])
      (fun b => by by_cases hh : b.isResolvedByHost = true <;> simp [hh])
      (fun b => by by_cases hh : b.isResolvedByHost = true <;> simp [hh])
      (fun b => by by_cases hh : b.isResolvedByHost = true <;> simp [hh])
      (by rw [hstat]; rfl)
  | escalate now bid s1 s2 h =>
    obtain ⟨hstat, -, -, rfl⟩ := escalateDispute_ok_iff.mp h
    exact inv_setBooking hinv (fun b => rfl) (fun b => rfl) (fun b => rfl) (fun b => rfl)
      (fun b => rfl) (fun b => rfl) (fun b => rfl) (by rw [hstat]; rfl)
  | adminResolve caller bid pct s1 s2 tr h =>
    obtain ⟨-, hstat, -, rfl, -⟩ := adminResolveDispute_ok_iff.mp h
    exact inv_setBooking hinv (fun b => rfl) (fun b => rfl) (fun b => rfl) (fun b => rfl)
      (fun b => rfl) (fun b => rfl) (fun b => rfl) (by rw [hstat]; rfl)
  | cancel now caller bid s1 s2 tr h =>
    obtain ⟨-, hstat, -, rfl, -⟩ := cancelBooking_ok_iff.mp h
    exact inv_setBooking hinv (fun b => rfl) (fun b => rfl) (fun b => rfl) (fun b => rfl)
      (fun b => rfl) (fun b => rfl) (fun b => rfl) (by rw [hstat]; rfl)
  | treasuryChange caller t s1 s2 h =>
    obtain ⟨-, -, rfl⟩ := setTreasury_ok_iff.mp h
    exact hinv

theorem inv_reach {s : BMState} (h : Reach s) : Inv s := by
  induction h with
  | init owner treasury => exact inv_init owner treasury
  | step s s' hr hs ih => exact inv_step hs ih

theorem flag_mono_setBooking {s : BMState} {bid : Nat} {u : Booking → Booking} {q : Nat}
    (hid : ∀ b, (u b).bookingId = b.bookingId)
    (hh : ∀ b, b.isResolvedByHost = true → (u b).isResolvedByHost = true)
    (hg : ∀ b, b.isResolvedByGuest = true → (u b).isResolvedByGuest = true) :
    ((getBooking s q).isResolvedByHost = true →
      (getBooking (setBooking s bid u) q).isResolvedByHost = true) ∧
    ((getBooking s q).isResolvedByGuest = true →
      (getBooking (setBooking s bid u) q).isResolvedByGuest = true) := by
  rw [getBooking_setBooking hid]
  unfold getBooking
  cases hf : s.bookings.find? (fun b => b.bookingId == q) with
  | none => simp [zeroBooking]
  | some b =>
    simp only [Option.getD_some]
    constructor
    · intro hflag
      by_cases hb : (b.bookingId == bid) = true
      · rw [if_pos hb]
        exact hh b hflag
      · rw [if_neg hb]
        exact hflag
    · intro hflag
      by_cases hb : (b.bookingId == bid) = true
      · rw [if_pos hb]
        exact hg b hflag
      · rw [if_neg hb]
        exact hflag

theorem flag_mono_append {s : BMState} {nb : Booking} {q : Nat}
    (hh : nb.isResolvedByHost = false) (hg : nb.isResolvedByGuest = false) :
    ((getBooking s q).isResolvedByHost = true →
      (getBooking { s with bookings := s.bookings ++ [nb] } q).isResolvedByHost = true) ∧
    ((getBooking s q).isResolvedByGuest = true →
      (getBooking { s with bookings := s.bookings ++ [nb] } q).isResolvedByGuest
        = true) := by
  rw [getBooking_append]
  unfold getBooking
  cases hf : s.bookings.find? (fun b => b.bookingId == q) with
  | none => simp [zeroBooking]
  | some b => simp

theorem step_flag_mono {s s' : BMState} (hs : Step s s') (q : Nat) :
    ((getBooking s q).isResolvedByHost = true →
      (getBooking s' q).isResolvedByHost = true) ∧
    ((getBooking s q).isResolvedByGuest = true →
      (getBooking s' q).isResolvedByGuest = true) := by
  cases hs with
  | create props feeRate now caller pid inD outD amt uri s1 s2 bid h =>
    obtain ⟨-, -, -, -, -, -, -, -, -, rfl⟩ := createBooking_ok_iff.mp h
    exact flag_mono_append rfl rfl
  | createPaid props feeRate now caller pid inD outD amt payRef uri s1 s2 bid h =>
    obtain ⟨-, -, -, -, -, -, -, -, rfl⟩ := createBookingPaid_ok_iff.mp h
    exact flag_mono_append rfl rfl
  | trigger now bid s1 s2 h =>
    obtain ⟨-, -, -, -, rfl⟩ := triggerCheckInWindow_ok_iff.mp h
    exact flag_mono_setBooking (fun b => rfl) (fun b hb => hb) (fun b hb => hb)
  | doCheckIn now caller bid s1 s2 h =>
    obtain ⟨-, -, -, rfl⟩ := checkIn_ok_iff.mp h
    exact flag_mono_setBooking (fun b => rfl) (fun b hb => hb) (fun b hb => hb)
  | missed now bid s1 s2 h =>
    obtain ⟨-, -, rfl⟩ := processMissedCheckIn_ok_iff.mp h
    exact flag_mono_setBooking (fun b => rfl) (fun b hb => hb) (fun b hb => hb)
  | hostResolve now caller bid s1 s2 tr h =>
    obtain ⟨-, -, -, rfl, -⟩ := hostResolveDispute_ok_iff.mp h
    exact flag_mono_setBooking
      (fun b => by by_cases hg : b.isResolvedByGuest = true <;> simp [hg])
      (fun b hb => by by_cases hg : b.isResolvedByGuest = true <;> simp [hg])
      (fun b hb => by
        by_cases hg : b.isResolvedByGuest = true
        · simp [hg]
        · exact absurd hb hg)
  | guestResolve now caller bid s1 s2 tr h =>
    obtain ⟨-, -, -, rfl, -⟩ := guestResolveDispute_ok_iff.mp h
    exact flag_mono_setBooking
      (fun b => by by_cases hh : b.isResolvedByHost = true <;> simp [hh])
      (fun b hb => by
        by_cases hh : b.isResolvedByHost = true
        · simp [hh]
        · exact absurd hb hh)
      (fun b hb => by by_cases hh : b.isResolvedByHost = true <;> simp [hh])
  | escalate now bid s1 s2 h =>
    obtain ⟨-, -, -, rfl⟩ := escalateDispute_ok_iff.mp h
    exact flag_mono_setBooking (fun b => rfl) (fun b hb => hb) (fun b hb => hb)
  | adminResolve caller bid pct s1 s2 tr h =>
    obtain ⟨-, -, -, rfl, -⟩ := adminResolveDispute_ok_iff.mp h
    exact flag_mono_setBooking (fun b => rfl) (fun b hb => hb) (fun b hb => hb)
  | cancel now caller bid s1 s2 tr h =>
    obtain ⟨-, -, -, rfl, -⟩ := cancelBooking_ok_iff.mp h
    exact flag_mono_setBooking (fun b => rfl) (fun b hb => hb) (fun b hb => hb)
  | treasuryChange caller t s1 s2 h =>
    obtain ⟨-, -, rfl⟩ := setTreasury_ok_iff.mp h
    exact ⟨fun hb => hb, fun hb => hb⟩

theorem processEvent_skip_processed {π : Type} {hasH : String → Bool}
    {handler : Ev → π → Option π} {s : ListenerState π} {e : Ev}
    (h : eventId e ∈ s.processedEvents) :
    processEvent hasH handler s e = s := by
  unfold processEvent
  by_cases hp : eventId e ∈ s.processingEvents
  · rw [if_pos hp]
  · rw [if_neg hp, if_pos h]

theorem processEvent_skip_inflight {π : Type} {hasH : String → Bool}
    {handler : Ev → π → Option π} {s : ListenerState π} {e : Ev}
    (h : eventId e ∈ s.processingEvents) :
    processEvent hasH handler s e = s := by
  unfold processEvent
  rw [if_pos h]

theorem processEvent_fail_spec {π : Type} {hasH : String → Bool}
    {handler : Ev → π → Option π} {s : ListenerState π} {e : Ev}
    (hp : eventId e ∉ s.processingEvents) (hc : eventId e ∉ s.processedEvents)
    (hn : hasH e.name = true) (hf : handler e s.proj = none) :
    processEvent hasH handler s e = { s with handlerLog := s.handlerLog ++ [e] } := by
  unfold processEvent
  rw [if_neg hp, if_neg hc, if_pos hn, hf]

theorem processEvent_success_spec {π : Type} {hasH : String → Bool}
    {handler : Ev → π → Option π} {s : ListenerState π} {e : Ev} {p2 : π}
    (hp : eventId e ∉ s.processingEvents) (hc : eventId e ∉ s.processedEvents)
    (hn : hasH e.name = true) (hf : handler e s.proj = some p2) :
    processEvent hasH handler s e =
      { s with
          proj := p2
          processedEvents := eventId e :: s.processedEvents
          handlerLog := s.handlerLog ++ [e] } := by
  unfold processEvent
  rw [if_neg hp, if_neg hc, if_pos hn, hf]

theorem processEvent_mono_processed {π : Type} {hasH : String → Bool}
    {handler : Ev → π → Option π} {s : ListenerState π} {e : Ev}
    {x : String × String × String} (h : x ∈ s.processedEvents) :
    x ∈ (processEvent hasH handler s e).processedEvents := by
  unfold processEvent
  by_cases hp : eventId e ∈ s.processingEvents
  · rw [if_pos hp]
    exact h
  · rw [if_neg hp]
    by_cases hc : eventId e ∈ s.processedEvents
    · rw [if_pos hc]
      exact h
    · rw [if_neg hc]
      by_cases hn : hasH e.name = true
      · rw [if_pos hn]
        cases hf : handler e s.proj with
        | some p2 => exact List.mem_cons_of_mem _ h
        | none => exact h
      · rw [if_neg hn]
        exact h

theorem findBookingByBlockchainId_nil (s : Strapi) (bid : String) :
    findBookingByBlockchainId s bid = [] := by
  simp [findBookingByBlockchainId]

theorem find?_of_status_ne_active {s : BMState} {bid : Nat}
    (h : (getBooking s bid).status ≠ .Active) :
    s.bookings.find? (fun b => b.bookingId == bid) = some (getBooking s bid) := by
  unfold getBooking at h ⊢
  cases hf : s.bookings.find? (fun b => b.bookingId == bid) with
  | none =>
    rw [hf] at h
    exact absurd rfl h
  | some b => simp

theorem getBooking_setBooking_self {s : BMState} {bid : Nat} {u : Booking → Booking}
    (hu : ∀ b, (u b).bookingId = b.bookingId)
    (hf : s.bookings.find? (fun b => b.bookingId == bid) = some (getBooking s bid)) :
    getBooking (setBooking s bid u) bid = u (getBooking s bid) := by
  rw [getBooking_setBooking hu, hf]
  have hbid := List.find?_some hf
  simp only at hbid
  simp [hbid]

theorem createBooking_dateConflict_iff {props : String → PropInfo}
    {feeRate now caller : Nat} {pid : String} {inD outD amt : Nat} {uri : String}
    {s : BMState} (h1 : (props pid).isActive = true) (h2 : (props pid).host ≠ 0)
    (h3 : (props pid).host ≠ caller) (h4 : now < inD) (h5 : inD < outD) :
    createBooking props feeRate now caller pid inD outD amt uri s
        = .error .dateConflict ↔
      hasBookingConflict s pid inD outD = true := by
  unfold createBooking
  rw [if_neg (by rw [h1]; exact Bool.true_eq_false.mp), if_neg h2, if_neg h3,
    if_neg (Nat.not_le.mpr h4), if_neg (Nat.not_le.mpr h5)]
  by_cases hc : hasBookingConflict s pid inD outD = true
  · rw [if_pos hc]
    simp [hc]
  · rw [if_neg hc]
    simp only [Bool.not_eq_true] at hc
    rw [hc]
    split_ifs <;> simp

theorem createBookingPaid_dateConflict_iff {props : String → PropInfo}
    {feeRate now caller : Nat} {pid : String} {inD outD amt : Nat} {payRef uri : String}
    {s : BMState} (h1 : (props pid).isActive = true) (h2 : (props pid).host ≠ 0)
    (h4 : now < inD) (h5 : inD < outD) :
    createBookingPaid props feeRate now caller pid inD outD amt payRef uri s
        = .error .dateConflict ↔
      hasBookingConflict s pid inD outD = true := by
  unfold createBookingPaid
  rw [if_neg (by rw [h1]; exact Bool.true_eq_false.mp), if_neg h2,
    if_neg (Nat.not_le.mpr h4), if_neg (Nat.not_le.mpr h5)]
  by_cases hc : hasBookingConflict s pid inD outD = true
  · rw [if_pos hc]
    simp [hc]
  · rw [if_neg hc]
    simp only [Bool.not_eq_true] at hc
    rw [hc]
    split_ifs <;> simp

theorem hostResolve_getBooking {s : BMState} {bid : Nat}
    (hstat : (getBooking s bid).status = .Disputed) :
    getBooking (setBooking s bid (fun bk =>
      if bk.isResolvedByGuest then
        { bk with isResolvedByHost := true, status := .Completed }
      else { bk with isResolvedByHost := true })) bid =
      (if (getBooking s bid).isResolvedByGuest then
        { getBooking s bid with isResolvedByHost := true, status := .Completed }
      else { getBooking s bid with isResolvedByHost := true }) := by
  have hfind := find?_of_status_ne_active (by rw [hstat]; decide)
  exact getBooking_setBooking_self
    (fun b => by by_cases hg : b.isResolvedByGuest = true <;> simp [hg]) hfind

theorem guestResolve_getBooking {s : BMState} {bid : Nat}
    (hstat : (getBooking s bid).status = .Disputed) :
    getBooking (setBooking s bid (fun bk =>
      if bk.isResolvedByHost then
        { bk with isResolvedByGuest := true, status := .Completed }
      else { bk with isResolvedByGuest := true })) bid =
      (if (getBooking s bid).isResolvedByHost then
        { getBooking s bid with isResolvedByGuest := true, status := .Completed }
      else { getBooking s bid with isResolvedByGuest := true }) := by
  have hfind := find?_of_status_ne_active (by rw [hstat]; decide)
  exact getBooking_setBooking_self
    (fun b => by by_cases hh : b.isResolvedByHost = true <;> simp [hh]) hfind

theorem escalate_getBooking {s : BMState} {bid : Nat}
    (hstat : (getBooking s bid).status = .Disputed) :
    getBooking (setBooking s bid
        (fun bk => { bk with status := .EscalatedToAdmin })) bid =
      { getBooking s bid with status := .EscalatedToAdmin } := by
  have hfind := find?_of_status_ne_active (by rw [hstat]; decide)
  exact getBooking_setBooking_self (fun b => rfl) hfind

theorem adminResolve_getBooking {s : BMState} {bid : Nat} {pct : Nat}
    (hstat : (getBooking s bid).status = .EscalatedToAdmin) :
    getBooking (setBooking s bid (fun bk =>
        { bk with status := if pct = 100 then .Refunded else .Completed })) bid =
      { getBooking s bid with
          status := if pct = 100 then .Refunded else .Completed } := by
  have hfind := find?_of_status_ne_active (by rw [hstat]; decide)
  exact getBooking_setBooking_self (fun b => rfl) hfind

/-! ## Claim theorems -/

/-- C1: in every reachable manager state, no two distinct bookings on the
same property have overlapping `[checkIn, checkOut)` ranges unless one of
them is Cancelled or Refunded; under the preceding guards, either creation
variant fails with `DateConflict` exactly when the requested range
satisfies `newCheckIn < existingCheckOut && newCheckOut > existingCheckIn`
against some non-Cancelled, non-Refunded booking on the property; and a
request that starts at or after every existing booking's check-out (in
particular back-to-back, `newCheckIn == existingCheckOut`) succeeds when
the other preconditions hold. -/
theorem c1_no_double_booking :
    (∀ s : BMState, Reach s →
      ∀ b1 ∈ s.bookings, ∀ b2 ∈ s.bookings,
        b1.bookingId ≠ b2.bookingId → b1.propertyId = b2.propertyId →
        b1.checkInDate < b2.checkOutDate → b2.checkInDate < b1.checkOutDate →
        b1.status = .Cancelled ∨ b1.status = .Refunded ∨
        b2.status = .Cancelled ∨ b2.status = .Refunded) ∧
    (∀ (props : String → PropInfo) (feeRate now caller : Nat) (pid : String)
        (inD outD amt : Nat) (uri : String) (s : BMState),
      (props pid).isActive = true → (props pid).host ≠ 0 → (props pid).host ≠ caller →
      now < inD → inD < outD →
      (createBooking props feeRate now caller pid inD outD amt uri s
          = .error .dateConflict ↔
        ∃ b ∈ s.bookings, b.propertyId = pid ∧ b.status ≠ .Cancelled ∧
          b.status ≠ .Refunded ∧ inD < b.checkOutDate ∧ outD > b.checkInDate)) ∧
    (∀ (props : String → PropInfo) (feeRate now caller : Nat) (pid : String)
        (inD outD amt : Nat) (payRef uri : String) (s : BMState),
      (props pid).isActive = true → (props pid).host ≠ 0 →
      now < inD → inD < outD →
      (createBookingPaid props feeRate now caller pid inD outD amt payRef uri s
          = .error .dateConflict ↔
        ∃ b ∈ s.bookings, b.propertyId = pid ∧ b.status ≠ .Cancelled ∧
          b.status ≠ .Refunded ∧ inD < b.checkOutDate ∧ outD > b.checkInDate)) ∧
    (∀ (props : String → PropInfo) (feeRate now caller : Nat) (pid : String)
        (inD outD amt : Nat) (uri : String) (s : BMState),
      (props pid).isActive = true → (props pid).host ≠ 0 → (props pid).host ≠ caller →
      now < inD → inD < outD → oneDay ≤ outD - inD → amt * feeRate / 1000 ≤ amt →
      (∀ b ∈ s.bookings, b.propertyId = pid →
        outD ≤ b.checkInDate ∨ b.checkOutDate ≤ inD) →
      ∃ s' bid, createBooking props feeRate now caller pid inD outD amt uri s
        = .ok (s', bid)) := by
  refine ⟨?_, ?_, ?_, ?_⟩
  · intro s hr b1 hb1 b2 hb2 hne hp h1 h2
    rcases (inv_reach hr).2.1 b1 hb1 b2 hb2 hne hp h1 h2 with h | h
    · rcases isCancelledOrRefunded_eq_true.mp h with h | h
      · exact Or.inl h
      · exact Or.inr (Or.inl h)
    · rcases isCancelledOrRefunded_eq_true.mp h with h | h
      · exact Or.inr (Or.inr (Or.inl h))
      · exact Or.inr (Or.inr (Or.inr h))
  · intro props feeRate now caller pid inD outD amt uri s h1 h2 h3 h4 h5
    exact (createBooking_dateConflict_iff h1 h2 h3 h4 h5).trans hasBookingConflict_iff
  · intro props feeRate now caller pid inD outD amt payRef uri s h1 h2 h4 h5
    exact (createBookingPaid_dateConflict_iff h1 h2 h4 h5).trans hasBookingConflict_iff
  · intro props feeRate now caller pid inD outD amt uri s h1 h2 h3 h4 h5 h6 h7 hbb
    refine ⟨_, _, createBooking_ok_iff.mpr ⟨h1, h2, h3, h4, h5, ?_, h6, h7, rfl, rfl⟩⟩
    rw [hasBookingConflict_eq_false]
    intro b hb hp hc hr hov
    rcases hbb b hb hp with h | h
    · omega
    · omega

/-- C1 witness: a concrete reachable state (create, cancel, re-create the
same dates) exercising the invariant on an overlapping pair with a
cancelled member; concrete `DateConflict` characterizations against the
active booking; and a concrete back-to-back creation that succeeds. -/
theorem c1_witness :
    (bk1Cancelled.status = .Cancelled ∨ bk1Cancelled.status = .Refunded ∨
      bk2Overlap.status = .Cancelled ∨ bk2Overlap.status = .Refunded) ∧
    (createBooking props1 30 0 3 "p" 200000 300000 100 "" sActive
        = .error .dateConflict ↔
      ∃ b ∈ sActive.bookings, b.propertyId = "p" ∧ b.status ≠ .Cancelled ∧
        b.status ≠ .Refunded ∧ 200000 < b.checkOutDate ∧ 300000 > b.checkInDate) ∧
    (createBookingPaid props1 30 0 3 "p" 200000 300000 100 "rev-1" "" sActive
        = .error .dateConflict ↔
      ∃ b ∈ sActive.bookings, b.propertyId = "p" ∧ b.status ≠ .Cancelled ∧
        b.status ≠ .Refunded ∧ 200000 < b.checkOutDate ∧ 300000 > b.checkInDate) ∧
    (∃ s' bid, createBooking props1 30 0 3 "p" 432000 518400 500 "" sActive
        = .ok (s', bid)) := by
  have r0 : Reach s0 := Reach.init 9 8
  have r1 : Reach sActive :=
    Reach.step s0 sActive r0
      (Step.create props1 30 0 2 "p" 172800 432000 1000 "" s0 sActive 1 (by decide))
  have r2 : Reach sCancelled :=
    Reach.step sActive sCancelled r1
      (Step.cancel 100 2 1 sActive sCancelled [⟨2, 970⟩, ⟨8, 30⟩] (by decide))
  have r3 : Reach sCancelledTwo :=
    Reach.step sCancelled sCancelledTwo r2
      (Step.create props1 30 0 3 "p" 172800 432000 777 "" sCancelled sCancelledTwo 2
        (by decide))
  refine ⟨?_, ?_, ?_, ?_⟩
  · exact c1_no_double_booking.1 sCancelledTwo r3 bk1Cancelled (by decide) bk2Overlap
      (by decide) (by decide) rfl (by decide) (by decide)
  · exact c1_no_double_booking.2.1 props1 30 0 3 "p" 200000 300000 100 "" sActive
      rfl (by decide) (by decide) (by decide) (by decide)
  · exact c1_no_double_booking.2.2.1 props1 30 0 3 "p" 200000 300000 100 "rev-1" ""
      sActive rfl (by decide) (by decide) (by decide)
  · exact c1_no_double_booking.2.2.2 props1 30 0 3 "p" 432000 518400 500 "" sActive
      rfl (by decide) (by decide) (by decide) (by decide) (by decide) (by decide)
      (by decide)

/-- C2: in every reachable state, every stored booking satisfies
`platformFee + hostAmount = totalAmount`; and at creation (both variants)
the stored record has `platformFee = totalAmount * feeRate / 1000` with the
equation holding for the creation amount. -/
theorem c2_fee_conservation :
    (∀ s : BMState, Reach s →
      ∀ b ∈ s.bookings, b.platformFee + b.hostAmount = b.totalAmount) ∧
    (∀ (props : String → PropInfo) (feeRate now caller : Nat) (pid : String)
        (inD outD amt : Nat) (uri : String) (s s' : BMState) (bid : Nat),
      createBooking props feeRate now caller pid inD outD amt uri s = .ok (s', bid) →
      ∃ nb : Booking, s'.bookings = s.bookings ++ [nb] ∧ nb.bookingId = bid ∧
        nb.totalAmount = amt ∧ nb.platformFee = amt * feeRate / 1000 ∧
        nb.platformFee + nb.hostAmount = nb.totalAmount) ∧
    (∀ (props : String → PropInfo) (feeRate now caller : Nat) (pid : String)
        (inD outD amt : Nat) (payRef uri : String) (s s' : BMState) (bid : Nat),
      createBookingPaid props feeRate now caller pid inD outD amt payRef uri s
          = .ok (s', bid) →
      ∃ nb : Booking, s'.bookings = s.bookings ++ [nb] ∧ nb.bookingId = bid ∧
        nb.totalAmount = amt ∧ nb.platformFee = amt * feeRate / 1000 ∧
        nb.platformFee + nb.hostAmount = nb.totalAmount) := by
  refine ⟨?_, ?_, ?_⟩
  · intro s hr b hb
    exact (inv_reach hr).2.2 b hb
  · intro props feeRate now caller pid inD outD amt uri s s' bid h
    obtain ⟨-, -, -, -, -, -, -, hfeeLe, hbid, rfl⟩ := createBooking_ok_iff.mp h
    exact ⟨_, rfl, hbid.symm, rfl, rfl, Nat.add_sub_cancel' hfeeLe⟩
  · intro props feeRate now caller pid inD outD amt payRef uri s s' bid h
    obtain ⟨-, -, -, -, -, -, hfeeLe, hbid, rfl⟩ := createBookingPaid_ok_iff.mp h
    exact ⟨_, rfl, hbid.symm, rfl, rfl, Nat.add_sub_cancel' hfeeLe⟩

/-- C2 witness: fee conservation on a concrete reachable two-booking state
and on a concrete creation (3% of 1000 = 30, 30 + 970 = 1000). -/
theorem c2_witness :
    (bk1Active.platformFee + bk1Active.hostAmount = bk1Active.totalAmount) ∧
    (∃ nb : Booking, sActive.bookings = s0.bookings ++ [nb] ∧ nb.bookingId = 1 ∧
      nb.totalAmount = 1000 ∧ nb.platformFee = 1000 * 30 / 1000 ∧
      nb.platformFee + nb.hostAmount = nb.totalAmount) := by
  have r0 : Reach s0 := Reach.init 9 8
  have r1 : Reach sActive :=
    Reach.step s0 sActive r0
      (Step.create props1 30 0 2 "p" 172800 432000 1000 "" s0 sActive 1 (by decide))
  refine ⟨?_, ?_⟩
  · exact c2_fee_conservation.1 sActive r1 bk1Active (by decide)
  · exact c2_fee_conservation.2.1 props1 30 0 2 "p" 172800 432000 1000 "" s0 sActive 1
      (by decide)

/-- C3: a successful `hostResolveDispute` implies the caller was the host,
the booking was Disputed within its window, the host flag is set
afterwards, and the status became Completed exactly when the guest had
already resolved (so completion happens in the call that sets the second
flag); symmetrically for `guestResolveDispute`; and across every
transition of the manager, both resolution flags are monotone — once true
they never become false. -/
theorem c3_dual_consent :
    (∀ (now caller bid : Nat) (s s' : BMState) (tr : List Transfer),
      hostResolveDispute now caller bid s = .ok (s', tr) →
      (getBooking s bid).host = caller ∧ (getBooking s bid).status = .Disputed ∧
      now ≤ (getBooking s bid).disputeDeadline ∧
      (getBooking s' bid).isResolvedByHost = true ∧
      ((getBooking s' bid).status = .Completed ↔
        (getBooking s bid).isResolvedByGuest = true)) ∧
    (∀ (now caller bid : Nat) (s s' : BMState) (tr : List Transfer),
      guestResolveDispute now caller bid s = .ok (s', tr) →
      (getBooking s bid).guest = caller ∧ (getBooking s bid).status = .Disputed ∧
      now ≤ (getBooking s bid).disputeDeadline ∧
      (getBooking s' bid).isResolvedByGuest = true ∧
      ((getBooking s' bid).status = .Completed ↔
        (getBooking s bid).isResolvedByHost = true)) ∧
    (∀ s s' : BMState, Step s s' → ∀ bid : Nat,
      ((getBooking s bid).isResolvedByHost = true →
        (getBooking s' bid).isResolvedByHost = true) ∧
      ((getBooking s bid).isResolvedByGuest = true →
        (getBooking s' bid).isResolvedByGuest = true)) := by
  refine ⟨?_, ?_, fun s s' hs bid => step_flag_mono hs bid⟩
  · intro now caller bid s s' tr h
    obtain ⟨hhost, hstat, hdl, rfl, -⟩ := hostResolveDispute_ok_iff.mp h
    rw [hostResolve_getBooking hstat]
    refine ⟨hhost, hstat, hdl, ?_, ?_⟩
    · by_cases hg : (getBooking s bid).isResolvedByGuest = true <;> simp [hg]
    · by_cases hg : (getBooking s bid).isResolvedByGuest = true
      · simp [hg]
      · simp only [Bool.not_eq_true] at hg
        rw [hg]
        simp [hstat]
  · intro now caller bid s s' tr h
    obtain ⟨hguest, hstat, hdl, rfl, -⟩ := guestResolveDispute_ok_iff.mp h
    rw [guestResolve_getBooking hstat]
    refine ⟨hguest, hstat, hdl, ?_, ?_⟩
    · by_cases hh : (getBooking s bid).isResolvedByHost = true <;> simp [hh]
    · by_cases hh : (getBooking s bid).isResolvedByHost = true
      · simp [hh]
      · simp only [Bool.not_eq_true] at hh
        rw [hh]
        simp [hstat]

/-- C3 witness: in the concrete scenario the host resolves first (booking
stays Disputed, host flag set), then the guest resolves and the booking
completes in that second call; the flags survive a concrete transition. -/
theorem c3_witness :
    ((getBooking sDisputed 1).host = 1 ∧ (getBooking sDisputed 1).status = .Disputed ∧
      259300 ≤ (getBooking sDisputed 1).disputeDeadline ∧
      (getBooking sHostResolved 1).isResolvedByHost = true ∧
      ((getBooking sHostResolved 1).status = .Completed ↔
        (getBooking sDisputed 1).isResolvedByGuest = true)) ∧
    ((getBooking sHostResolved 1).guest = 2 ∧
      (getBooking sHostResolved 1).status = .Disputed ∧
      259400 ≤ (getBooking sHostResolved 1).disputeDeadline ∧
      (getBooking sCompleted 1).isResolvedByGuest = true ∧
      ((getBooking sCompleted 1).status = .Completed ↔
        (getBooking sHostResolved 1).isResolvedByHost = true)) ∧
    (((getBooking sHostResolved 1).isResolvedByHost = true →
        (getBooking sCompleted 1).isResolvedByHost = true) ∧
      ((getBooking sHostResolved 1).isResolvedByGuest = true →
        (getBooking sCompleted 1).isResolvedByGuest = true)) := by
  refine ⟨?_, ?_, ?_⟩
  · exact c3_dual_consent.1 259300 1 1 sDisputed sHostResolved [] (by decide)
  · exact c3_dual_consent.2.1 259400 2 1 sHostResolved sCompleted
      [⟨8, 30⟩, ⟨1, 970⟩] (by decide)
  · exact c3_dual_consent.2.2 sHostResolved sCompleted
      (Step.guestResolve 259400 2 1 sHostResolved sCompleted [⟨8, 30⟩, ⟨1, 970⟩]
        (by decide)) 1

/-- C7 counterexample: the claim requires the stay length to be a positive
integer multiple of one day, but the contract only requires
`(checkOut - checkIn) / 1 days > 0`: a stay of 86401 seconds (one day plus
one second, not a multiple of a day) is accepted. -/
theorem c7_counterexample :
    createBooking props1 30 0 2 "p" 1 86402 1000 "" s0 = .ok (sOdd, 1) ∧
    (86402 - 1) % oneDay ≠ 0 := by
  exact ⟨by decide, by decide⟩

/-- C7 amended: creation (both variants) succeeds only when the check-in
is strictly in the future, check-out is after check-in, and the stay is at
least one day long (not necessarily a multiple of a day); any violation of
these rules makes the call fail (no booking is created), and — when the
property checks pass and no date conflict pre-empts it — the failure is one
of the `InvalidDateRange`-class errors. -/
theorem c7_amended :
    (∀ (props : String → PropInfo) (feeRate now caller : Nat) (pid : String)
        (inD outD amt : Nat) (uri : String) (s s' : BMState) (bid : Nat),
      createBooking props feeRate now caller pid inD outD amt uri s = .ok (s', bid) →
      now < inD ∧ inD < outD ∧ oneDay ≤ outD - inD) ∧
    (∀ (props : String → PropInfo) (feeRate now caller : Nat) (pid : String)
        (inD outD amt : Nat) (payRef uri : String) (s s' : BMState) (bid : Nat),
      createBookingPaid props feeRate now caller pid inD outD amt payRef uri s
          = .ok (s', bid) →
      now < inD ∧ inD < outD ∧ oneDay ≤ outD - inD) ∧
    (∀ (props : String → PropInfo) (feeRate now caller : Nat) (pid : String)
        (inD outD amt : Nat) (uri : String) (s : BMState),
      (inD ≤ now ∨ outD ≤ inD ∨ outD - inD < oneDay) →
      ∀ (s' : BMState) (bid : Nat),
        createBooking props feeRate now caller pid inD outD amt uri s
          ≠ .ok (s', bid)) ∧
    (∀ (props : String → PropInfo) (feeRate now caller : Nat) (pid : String)
        (inD outD amt : Nat) (payRef uri : String) (s : BMState),
      (inD ≤ now ∨ outD ≤ inD ∨ outD - inD < oneDay) →
      ∀ (s' : BMState) (bid : Nat),
        createBookingPaid props feeRate now caller pid inD outD amt payRef uri s
          ≠ .ok (s', bid)) ∧
    (∀ (props : String → PropInfo) (feeRate now caller : Nat) (pid : String)
        (inD outD amt : Nat) (uri : String) (s : BMState),
      (props pid).isActive = true → (props pid).host ≠ 0 → (props pid).host ≠ caller →
      hasBookingConflict s pid inD outD = false →
      (inD ≤ now ∨ outD ≤ inD ∨ outD - inD < oneDay) →
      createBooking props feeRate now caller pid inD outD amt uri s
          = .error .checkInNotFuture ∨
      createBooking props feeRate now caller pid inD outD amt uri s
          = .error .checkOutNotAfterCheckIn ∨
      createBooking props feeRate now caller pid inD outD amt uri s
          = .error .atLeastOneNight) ∧
    (∀ (props : String → PropInfo) (feeRate now caller : Nat) (pid : String)
        (inD outD amt : Nat) (payRef uri : String) (s : BMState),
      (props pid).isActive = true → (props pid).host ≠ 0 →
      hasBookingConflict s pid inD outD = false →
      (inD ≤ now ∨ outD ≤ inD ∨ outD - inD < oneDay) →
      createBookingPaid props feeRate now caller pid inD outD amt payRef uri s
          = .error .checkInNotFuture ∨
      createBookingPaid props feeRate now caller pid inD outD amt payRef uri s
          = .error .checkOutNotAfterCheckIn ∨
      createBookingPaid props feeRate now caller pid inD outD amt payRef uri s
          = .error .atLeastOneNight) := by
  refine ⟨?_, ?_, ?_, ?_, ?_, ?_⟩
  · intro props feeRate now caller pid inD outD amt uri s s' bid h
    obtain ⟨-, -, -, h4, h5, -, h6, -⟩ := createBooking_ok_iff.mp h
    exact ⟨h4, h5, h6⟩
  · intro props feeRate now caller pid inD outD amt payRef uri s s' bid h
    obtain ⟨-, -, h4, h5, -, h6, -⟩ := createBookingPaid_ok_iff.mp h
    exact ⟨h4, h5, h6⟩
  · intro props feeRate now caller pid inD outD amt uri s hviol s' bid h
    obtain ⟨-, -, -, h4, h5, -, h6, -⟩ := createBooking_ok_iff.mp h
    omega
  · intro props feeRate now caller pid inD outD amt payRef uri s hviol s' bid h
    obtain ⟨-, -, h4, h5, -, h6, -⟩ := createBookingPaid_ok_iff.mp h
    omega
  · intro props feeRate now caller pid inD outD amt uri s h1 h2 h3 hconf hviol
    unfold createBooking
    rw [if_neg (by rw [h1]; exact Bool.true_eq_false.mp), if_neg h2, if_neg h3]
    by_cases hin : inD ≤ now
    · rw [if_pos hin]
      exact Or.inl rfl
    · rw [if_neg hin]
      by_cases hout : outD ≤ inD
      · rw [if_pos hout]
        exact Or.inr (Or.inl rfl)
      · rw [if_neg hout]
        rw [if_neg (by rw [hconf]; exact Bool.false_ne_true)]
        have hday : outD - inD < oneDay := by omega
        rw [if_pos ((Nat.div_eq_zero_iff (show 0 < oneDay by decide)).mpr hday)]
        exact Or.inr (Or.inr rfl)
  · intro props feeRate now caller pid inD outD amt payRef uri s h1 h2 hconf hviol
    unfold createBookingPaid
    rw [if_neg (by rw [h1]; exact Bool.true_eq_false.mp), if_neg h2]
    by_cases hin : inD ≤ now
    · rw [if_pos hin]
      exact Or.inl rfl
    · rw [if_neg hin]
      by_cases hout : outD ≤ inD
      · rw [if_pos hout]
        exact Or.inr (Or.inl rfl)
      · rw [if_neg hout]
        rw [if_neg (by rw [hconf]; exact Bool.false_ne_true)]
        have hday : outD - inD < oneDay := by omega
        rw [if_pos ((Nat.div_eq_zero_iff (show 0 < oneDay by decide)).mpr hday)]
        exact Or.inr (Or.inr rfl)

/-- C7 witness: concrete instantiations of the amended claim — a valid
creation's dates satisfy the amended rules; a past check-in date can never
be accepted; and a sub-day stay is rejected with the at-least-one-night
error. -/
theorem c7_witness :
    (0 < 172800 ∧ 172800 < 432000 ∧ oneDay ≤ 432000 - 172800) ∧
    (0 < 172800 ∧ 172800 < 432000 ∧ oneDay ≤ 432000 - 172800) ∧
    (∀ (s' : BMState) (bid : Nat),
      createBooking props1 30 500000 2 "p" 172800 432000 1000 "" s0
        ≠ .ok (s', bid)) ∧
    (∀ (s' : BMState) (bid : Nat),
      createBookingPaid props1 30 500000 2 "p" 172800 432000 1000 "rev-1" "" s0
        ≠ .ok (s', bid)) ∧
    (createBooking props1 30 0 2 "p" 5 10 100 "" s0 = .error .checkInNotFuture ∨
      createBooking props1 30 0 2 "p" 5 10 100 "" s0
        = .error .checkOutNotAfterCheckIn ∨
      createBooking props1 30 0 2 "p" 5 10 100 "" s0 = .error .atLeastOneNight) ∧
    (createBookingPaid props1 30 0 2 "p" 5 10 100 "rev-1" "" s0
        = .error .checkInNotFuture ∨
      createBookingPaid props1 30 0 2 "p" 5 10 100 "rev-1" "" s0
        = .error .checkOutNotAfterCheckIn ∨
      createBookingPaid props1 30 0 2 "p" 5 10 100 "rev-1" "" s0
        = .error .atLeastOneNight) := by
  refine ⟨?_, ?_, ?_, ?_, ?_, ?_⟩
  · exact c7_amended.1 props1 30 0 2 "p" 172800 432000 1000 "" s0 sActive 1 (by decide)
  · exact c7_amended.2.1 props1 30 0 2 "p" 172800 432000 1000 "rev-1" "" s0 sPaid 1
      (by decide)
  · exact c7_amended.2.2.1 props1 30 500000 2 "p" 172800 432000 1000 "" s0
      (Or.inl (by decide))
  · exact c7_amended.2.2.2.1 props1 30 500000 2 "p" 172800 432000 1000 "rev-1" "" s0
      (Or.inl (by decide))
  · exact c7_amended.2.2.2.2.1 props1 30 0 2 "p" 5 10 100 "" s0 rfl (by decide)
      (by decide) (by decide) (Or.inr (Or.inr (by decide)))
  · exact c7_amended.2.2.2.2.2 props1 30 0 2 "p" 5 10 100 "rev-1" "" s0 rfl (by decide)
      (by decide) (Or.inr (Or.inr (by decide)))

/-- C8: `adminResolveDispute` succeeds exactly for the contract owner on an
`EscalatedToAdmin` booking with a percentage in [0,100]; on success the
guest is sent `hostAmount * pct / 100`, the host the remainder, the
platform fee always goes to the treasury on the on-chain path, the status
becomes Refunded iff the percentage is 100 (Completed otherwise), and an
off-chain-paid booking gets the identical status update with no transfers;
the named failures are `notEscalated` and `invalidPercentage`. -/
theorem c8_admin_resolve :
    (∀ (caller bid pct : Nat) (s s' : BMState) (tr : List Transfer),
      adminResolveDispute caller bid pct s = .ok (s', tr) →
      caller = s.owner ∧ (getBooking s bid).status = .EscalatedToAdmin ∧ pct ≤ 100 ∧
      ((getBooking s' bid).status = .Refunded ↔ pct = 100) ∧
      ((getBooking s' bid).status = .Completed ↔ pct ≠ 100) ∧
      ((getBooking s bid).paidOffChain = true → tr = []) ∧
      ((getBooking s bid).paidOffChain = false →
        tr = (if 0 < (getBooking s bid).hostAmount * pct / 100 then
                [⟨(getBooking s bid).guest, (getBooking s bid).hostAmount * pct / 100⟩]
              else []) ++
             (if 0 < (getBooking s bid).hostAmount
                     - (getBooking s bid).hostAmount * pct / 100 then
                [⟨(getBooking s bid).host,
                  (getBooking s bid).hostAmount
                    - (getBooking s bid).hostAmount * pct / 100⟩]
              else []) ++
             [⟨s.treasury, (getBooking s bid).platformFee⟩])) ∧
    (∀ (caller bid pct : Nat) (s : BMState), caller = s.owner →
      (getBooking s bid).status = .EscalatedToAdmin → pct ≤ 100 →
      ∃ s' tr, adminResolveDispute caller bid pct s = .ok (s', tr)) ∧
    (∀ (caller bid pct : Nat) (s : BMState), caller = s.owner →
      (getBooking s bid).status ≠ .EscalatedToAdmin →
      adminResolveDispute caller bid pct s = .error .notEscalated) ∧
    (∀ (caller bid pct : Nat) (s : BMState), caller = s.owner →
      (getBooking s bid).status = .EscalatedToAdmin → 100 < pct →
      adminResolveDispute caller bid pct s = .error .invalidPercentage) := by
  refine ⟨?_, ?_, ?_, ?_⟩
  · intro caller bid pct s s' tr h
    obtain ⟨hcaller, hstat, hle, rfl, htr⟩ := adminResolveDispute_ok_iff.mp h
    rw [adminResolve_getBooking hstat]
    refine ⟨hcaller, hstat, hle, ?_, ?_, ?_, ?_⟩
    · by_cases hp : pct = 100 <;> simp [hp]
    · by_cases hp : pct = 100 <;> simp [hp]
    · intro hoff
      rw [htr, hoff]
      rfl
    · intro hoff
      rw [htr, hoff]
      rfl
  · intro caller bid pct s h1 h2 h3
    exact ⟨_, _, adminResolveDispute_ok_iff.mpr ⟨h1, h2, h3, rfl, rfl⟩⟩
  · intro caller bid pct s h1 h2
    unfold adminResolveDispute
    rw [if_neg (fun hc => hc h1), if_pos h2]
  · intro caller bid pct s h1 h2 h3
    unfold adminResolveDispute
    rw [if_neg (fun hc => hc h1), if_neg (not_not_intro h2), if_pos h3]

/-- C8 witness: a 40% split on the concrete escalated booking pays the
guest 388, the host 582 and the treasury the 30-unit fee with status
Completed; a 100% split refunds; the off-chain variant skips transfers
with the same status rule; and the two named failures occur on a
non-escalated booking and on a percentage above 100. -/
theorem c8_witness :
    (9 = sEscalated.owner ∧ (getBooking sEscalated 1).status = .EscalatedToAdmin ∧
      (40 : Nat) ≤ 100 ∧
      ((getBooking ⟨[{ bk1Escalated with status := .Completed }], 9, 8⟩ 1).status
          = .Refunded ↔ (40 : Nat) = 100) ∧
      ((getBooking ⟨[{ bk1Escalated with status := .Completed }], 9, 8⟩ 1).status
          = .Completed ↔ (40 : Nat) ≠ 100) ∧
      ((getBooking sEscalated 1).paidOffChain = true →
        ([⟨2, 388⟩, ⟨1, 582⟩, ⟨8, 30⟩] : List Transfer) = []) ∧
      ((getBooking sEscalated 1).paidOffChain = false →
        ([⟨2, 388⟩, ⟨1, 582⟩, ⟨8, 30⟩] : List Transfer) =
          (if 0 < (getBooking sEscalated 1).hostAmount * 40 / 100 then
            [⟨(getBooking sEscalated 1).guest,
              (getBooking sEscalated 1).hostAmount * 40 / 100⟩]
           else []) ++
          (if 0 < (getBooking sEscalated 1).hostAmount
                  - (getBooking sEscalated 1).hostAmount * 40 / 100 then
            [⟨(getBooking sEscalated 1).host,
              (getBooking sEscalated 1).hostAmount
                - (getBooking sEscalated 1).hostAmount * 40 / 100⟩]
           else []) ++
          [⟨sEscalated.treasury, (getBooking sEscalated 1).platformFee⟩])) ∧
    ((getBooking sEscalatedOff 1).paidOffChain = true →
      ([] : List Transfer) = []) ∧
    (∃ s' tr, adminResolveDispute 9 1 100 sEscalated = .ok (s', tr)) ∧
    (adminResolveDispute 9 1 40 sReady = .error .notEscalated) ∧
    (adminResolveDispute 9 1 101 sEscalated = .error .invalidPercentage) := by
  refine ⟨?_, ?_, ?_, ?_, ?_⟩
  · exact c8_admin_resolve.1 9 1 40 sEscalated
      ⟨[{ bk1Escalated with status := .Completed }], 9, 8⟩
      [⟨2, 388⟩, ⟨1, 582⟩, ⟨8, 30⟩] (by decide)
  · exact (c8_admin_resolve.1 9 1 40 sEscalatedOff
      ⟨[{ bk1EscalatedOff with status := .Completed }], 9, 8⟩ [] (by decide)).2.2.2.2.2.1
  · exact c8_admin_resolve.2.1 9 1 100 sEscalated rfl (by decide) (by decide)
  · exact c8_admin_resolve.2.2.1 9 1 40 sReady rfl (by decide)
  · exact c8_admin_resolve.2.2.2 9 1 101 sEscalated rfl (by decide) (by decide)

/-- C9: `escalateDispute` (which takes no caller — anyone may call it)
succeeds exactly on a Disputed booking whose dispute deadline has passed
and where not both parties have resolved (in particular a booking with
exactly one resolution flag set can be escalated); its only effect is
setting that booking's status to `EscalatedToAdmin`; the failures are
`notInDispute`, `disputeWindowNotExpired` and `alreadyResolved`. -/
theorem c9_escalate :
    (∀ (now bid : Nat) (s s' : BMState),
      escalateDispute now bid s = .ok s' →
      (getBooking s bid).status = .Disputed ∧
      (getBooking s bid).disputeDeadline < now ∧
      ¬((getBooking s bid).isResolvedByHost = true ∧
        (getBooking s bid).isResolvedByGuest = true) ∧
      s' = setBooking s bid (fun bk => { bk with status := .EscalatedToAdmin }) ∧
      getBooking s' bid = { getBooking s bid with status := .EscalatedToAdmin } ∧
      s'.owner = s.owner ∧ s'.treasury = s.treasury) ∧
    (∀ (now bid : Nat) (s : BMState),
      (getBooking s bid).status = .Disputed →
      (getBooking s bid).disputeDeadline < now →
      ¬((getBooking s bid).isResolvedByHost = true ∧
        (getBooking s bid).isResolvedByGuest = true) →
      ∃ s', escalateDispute now bid s = .ok s') ∧
    (∀ (now bid : Nat) (s : BMState), (getBooking s bid).status ≠ .Disputed →
      escalateDispute now bid s = .error .notInDispute) ∧
    (∀ (now bid : Nat) (s : BMState), (getBooking s bid).status = .Disputed →
      now ≤ (getBooking s bid).disputeDeadline →
      escalateDispute now bid s = .error .disputeWindowNotExpired) ∧
    (∀ (now bid : Nat) (s : BMState), (getBooking s bid).status = .Disputed →
      (getBooking s bid).disputeDeadline < now →
      (getBooking s bid).isResolvedByHost = true →
      (getBooking s bid).isResolvedByGuest = true →
      escalateDispute now bid s = .error .alreadyResolved) := by
  refine ⟨?_, ?_, ?_, ?_, ?_⟩
  · intro now bid s s' h
    obtain ⟨hstat, hdl, hres, rfl⟩ := escalateDispute_ok_iff.mp h
    exact ⟨hstat, hdl, hres, rfl, escalate_getBooking hstat, rfl, rfl⟩
  · intro now bid s h1 h2 h3
    exact ⟨_, escalateDispute_ok_iff.mpr ⟨h1, h2, h3, rfl⟩⟩
  · intro now bid s h1
    unfold escalateDispute
    rw [if_pos h1]
  · intro now bid s h1 h2
    unfold escalateDispute
    rw [if_neg (not_not_intro h1), if_pos h2]
  · intro now bid s h1 h2 h3 h4
    unfold escalateDispute
    rw [if_neg (not_not_intro h1), if_neg (Nat.not_le.mpr h2),
      if_pos (by rw [h3, h4]; rfl)]

/-- C9 witness: the host-resolved-only disputed booking escalates after
its deadline (a lone resolution does not block escalation), the effect is
exactly the status change; and the three failures fire on a non-disputed
booking, inside the window, and on a doubly-resolved booking. -/
theorem c9_witness :
    ((getBooking sHostResolved 1).status = .Disputed ∧
      (getBooking sHostResolved 1).disputeDeadline < 345602 ∧
      ¬((getBooking sHostResolved 1).isResolvedByHost = true ∧
        (getBooking sHostResolved 1).isResolvedByGuest = true) ∧
      sEscalated = setBooking sHostResolved 1
        (fun bk => { bk with status := .EscalatedToAdmin }) ∧
      getBooking sEscalated 1
        = { getBooking sHostResolved 1 with status := .EscalatedToAdmin } ∧
      sEscalated.owner = sHostResolved.owner ∧
      sEscalated.treasury = sHostResolved.treasury) ∧
    (∃ s', escalateDispute 345602 1 sHostResolved = .ok s') ∧
    (escalateDispute 345602 1 sReady = .error .notInDispute) ∧
    (escalateDispute 300000 1 sDisputed = .error .disputeWindowNotExpired) ∧
    (escalateDispute 345602 1 sBothResolved = .error .alreadyResolved) := by
  refine ⟨?_, ?_, ?_, ?_, ?_⟩
  · exact c9_escalate.1 345602 1 sHostResolved sEscalated (by decide)
  · exact c9_escalate.2.1 345602 1 sHostResolved (by decide) (by decide) (by decide)
  · exact c9_escalate.2.2.1 345602 1 sReady (by decide)
  · exact c9_escalate.2.2.2.1 300000 1 sDisputed (by decide) (by decide)
  · exact c9_escalate.2.2.2.2 345602 1 sBothResolved (by decide) (by decide) (by decide)
      (by decide)

/-- C4 counterexample: a two-event batch (blocks 3 and 5) in which the
block-3 event's handler fails; after `processNewBlocks` the failed event
is not marked processed (the part of the original claim that holds) but
the cursor has advanced to block 5 — past the failing event's block — so
the next poll, which starts at cursor + 1, will not re-fetch it. -/
theorem c4_counterexample :
    (processNewBlocks hasHAll handlerDemo 5 [evFail, evOk] l0).lastProcessedBlock = 5 ∧
    evFail.blockNumber
      < (processNewBlocks hasHAll handlerDemo 5 [evFail, evOk] l0).lastProcessedBlock ∧
    eventId evFail
      ∉ (processNewBlocks hasHAll handlerDemo 5 [evFail, evOk] l0).processedEvents ∧
    eventId evOk
      ∈ (processNewBlocks hasHAll handlerDemo 5 [evFail, evOk] l0).processedEvents := by
  exact ⟨by decide, by decide, by decide, by decide⟩

/-- C4 amended: in a poll cycle, an event whose handler fails is not
marked processed and does not mutate the projection; an event whose
handler succeeds is marked processed; already-processed marks survive
further processing (so one failure does not block unrelated events in the
same batch); but the cursor unconditionally advances to the fetched head
whenever the head is past it, regardless of per-event handler failures, so
a failed event is not re-fetched by the next poll. -/
theorem c4_amended (π : Type) :
    (∀ (hasH : String → Bool) (handler : Ev → π → Option π) (s : ListenerState π)
        (e : Ev),
      eventId e ∉ s.processingEvents → eventId e ∉ s.processedEvents →
      hasH e.name = true → handler e s.proj = none →
      (processEvent hasH handler s e).processedEvents = s.processedEvents ∧
      (processEvent hasH handler s e).processingEvents = s.processingEvents ∧
      (processEvent hasH handler s e).proj = s.proj) ∧
    (∀ (hasH : String → Bool) (handler : Ev → π → Option π) (s : ListenerState π)
        (e : Ev) (p2 : π),
      eventId e ∉ s.processingEvents → eventId e ∉ s.processedEvents →
      hasH e.name = true → handler e s.proj = some p2 →
      eventId e ∈ (processEvent hasH handler s e).processedEvents ∧
      (processEvent hasH handler s e).proj = p2) ∧
    (∀ (hasH : String → Bool) (handler : Ev → π → Option π) (s : ListenerState π)
        (e : Ev) (x : String × String × String),
      x ∈ s.processedEvents → x ∈ (processEvent hasH handler s e).processedEvents) ∧
    (∀ (hasH : String → Bool) (handler : Ev → π → Option π) (currentBlock : Nat)
        (events : List Ev) (s : ListenerState π),
      s.lastProcessedBlock < currentBlock →
      (processNewBlocks hasH handler currentBlock events s).lastProcessedBlock
        = currentBlock) := by
  refine ⟨?_, ?_, ?_, ?_⟩
  · intro hasH handler s e hp hc hn hf
    rw [processEvent_fail_spec hp hc hn hf]
    exact ⟨rfl, rfl, rfl⟩
  · intro hasH handler s e p2 hp hc hn hf
    rw [processEvent_success_spec hp hc hn hf]
    exact ⟨List.mem_cons_self _ _, rfl⟩
  · intro hasH handler s e x hx
    exact processEvent_mono_processed hx
  · intro hasH handler currentBlock events s hlt
    unfold processNewBlocks
    rw [if_pos hlt]

/-- C4 amended witness: the concrete two-event batch — the failing event
commits nothing, the succeeding event commits, commits persist, and the
cursor lands on the fetched head. -/
theorem c4_amended_witness :
    ((processEvent hasHAll handlerDemo l0 evFail).processedEvents = l0.processedEvents ∧
      (processEvent hasHAll handlerDemo l0 evFail).processingEvents
        = l0.processingEvents ∧
      (processEvent hasHAll handlerDemo l0 evFail).proj = l0.proj) ∧
    (eventId evOk ∈ (processEvent hasHAll handlerDemo l0 evOk).processedEvents ∧
      (processEvent hasHAll handlerDemo l0 evOk).proj = ["Ok"]) ∧
    (eventId evOk ∈ (processEvent hasHAll handlerDemo l1 evFail).processedEvents) ∧
    ((processNewBlocks hasHAll handlerDemo 5 [evFail, evOk] l0).lastProcessedBlock
      = 5) := by
  refine ⟨?_, ?_, ?_, ?_⟩
  · exact (c4_amended (List String)).1 hasHAll handlerDemo l0 evFail (by decide)
      (by decide) rfl rfl
  · exact (c4_amended (List String)).2.1 hasHAll handlerDemo l0 evOk ["Ok"] (by decide)
      (by decide) rfl rfl
  · exact (c4_amended (List String)).2.2.1 hasHAll handlerDemo l1 evFail
      (eventId evOk) (by decide)
  · exact (c4_amended (List String)).2.2.2 hasHAll handlerDemo 5 [evFail, evOk] l0
      (by decide)

/-- C5: event identity is the (transaction hash, event name, stringified
argument payload) tuple; re-delivering an event whose identity is in the
committed set (or in the in-flight set, for a concurrent delivery) leaves
the listener state — projection, sets and handler-invocation log —
untouched, so the handler is not re-invoked; delivering an event twice
when its handler succeeds yields exactly the state of delivering it once;
and a throwing handler leaves the in-flight set as it was (the marker is
released) without committing the identity or touching the projection. -/
theorem c5_idempotent (π : Type) :
    (∀ (hasH : String → Bool) (handler : Ev → π → Option π) (s : ListenerState π)
        (e : Ev),
      eventId e ∈ s.processedEvents → processEvent hasH handler s e = s) ∧
    (∀ (hasH : String → Bool) (handler : Ev → π → Option π) (s : ListenerState π)
        (e : Ev),
      eventId e ∈ s.processingEvents → processEvent hasH handler s e = s) ∧
    (∀ (hasH : String → Bool) (handler : Ev → π → Option π) (s : ListenerState π)
        (e : Ev) (p2 : π),
      handler e s.proj = some p2 →
      processEvent hasH handler (processEvent hasH handler s e) e
        = processEvent hasH handler s e) ∧
    (∀ (hasH : String → Bool) (handler : Ev → π → Option π) (s : ListenerState π)
        (e : Ev),
      eventId e ∉ s.processingEvents → eventId e ∉ s.processedEvents →
      hasH e.name = true → handler e s.proj = none →
      (processEvent hasH handler s e).processingEvents = s.processingEvents ∧
      (processEvent hasH handler s e).processedEvents = s.processedEvents ∧
      (processEvent hasH handler s e).proj = s.proj) := by
  refine ⟨?_, ?_, ?_, ?_⟩
  · intro hasH handler s e h
    exact processEvent_skip_processed h
  · intro hasH handler s e h
    exact processEvent_skip_inflight h
  · intro hasH handler s e p2 hsucc
    by_cases hp : eventId e ∈ s.processingEvents
    · rw [processEvent_skip_inflight hp, processEvent_skip_inflight hp]
    · by_cases hc : eventId e ∈ s.processedEvents
      · rw [processEvent_skip_processed hc, processEvent_skip_processed hc]
      · by_cases hn : hasH e.name = true
        · rw [processEvent_success_spec hp hc hn hsucc]
          exact processEvent_skip_processed (List.mem_cons_self _ _)
        · have hskip : processEvent hasH handler s e = s := by
            unfold processEvent
            rw [if_neg hp, if_neg hc, if_neg hn]
          rw [hskip, hskip]
  · intro hasH handler s e hp hc hn hf
    rw [processEvent_fail_spec hp hc hn hf]
    exact ⟨rfl, rfl, rfl⟩

/-- C5 witness: concrete double delivery — an already-committed event is
skipped with no state change, an in-flight event is skipped, a successful
event delivered twice equals one delivery, and a throwing handler releases
the marker without committing. -/
theorem c5_witness :
    (processEvent hasHAll handlerDemo l1 evOk = l1) ∧
    (processEvent hasHAll handlerDemo lInflight evOk = lInflight) ∧
    (processEvent hasHAll handlerDemo (processEvent hasHAll handlerDemo l0 evOk) evOk
      = processEvent hasHAll handlerDemo l0 evOk) ∧
    ((processEvent hasHAll handlerDemo l0 evFail).processingEvents
        = l0.processingEvents ∧
      (processEvent hasHAll handlerDemo l0 evFail).processedEvents
        = l0.processedEvents ∧
      (processEvent hasHAll handlerDemo l0 evFail).proj = l0.proj) := by
  refine ⟨?_, ?_, ?_, ?_⟩
  · exact (c5_idempotent (List String)).1 hasHAll handlerDemo l1 evOk (by decide)
  · exact (c5_idempotent (List String)).2.1 hasHAll handlerDemo lInflight evOk
      (by decide)
  · exact (c5_idempotent (List String)).2.2.1 hasHAll handlerDemo l0 evOk ["Ok"] rfl
  · exact (c5_idempotent (List String)).2.2.2 hasHAll handlerDemo l0 evFail (by decide)
      (by decide) rfl rfl

/-- C6 counterexample: the projection store contains a booking record with
ledger id "1", yet `findBookingByBlockchainId` — whose filter callback
unconditionally returns false — reports no match, so the handler never
detects the duplicate through the ledger-id lookup the claim describes. -/
theorem c6_counterexample :
    (∃ b ∈ strapiX.bookings, b.blockchainBookingId = "1") ∧
    findBookingByBlockchainId strapiX "1" = [] := by
  exact ⟨⟨sbX, by decide, rfl⟩, by decide⟩

/-- C6 amended: the ledger-id lookup is a stub that reports no match on
every store, so re-invoking `createBookingInStrapi` is not detected via the
ledger id; it is nevertheless a detected no-op — when the booking's
property record exists and already has any booking record, the handler
returns that existing record, changes nothing, and raises no error. -/
theorem c6_amended :
    (∀ (s : Strapi) (bid : String), findBookingByBlockchainId s bid = []) ∧
    (∀ (recover : Strapi → String → Strapi) (s : Strapi) (bd : BookingData)
        (p : StrapiProperty) (ps : List StrapiProperty) (b : StrapiBooking)
        (bs : List StrapiBooking),
      findPropertyByBlockchainId s bd.propertyId = p :: ps →
      findBookingsByPropertyId s p.id = b :: bs →
      createBookingInStrapi true recover s bd = (s, some b)) := by
  refine ⟨findBookingByBlockchainId_nil, ?_⟩
  intro recover s bd p ps b bs hp hb
  unfold createBookingInStrapi
  rw [if_neg (show ¬(true = false) by decide), findBookingByBlockchainId_nil, hp]
  show strapiInsertBooking s bd p = (s, some b)
  unfold strapiInsertBooking
  rw [hb]

/-- C6 amended witness: on the concrete store already holding the record
for ledger booking "1", re-invoking the handler with the same payload
returns that record and leaves the store unchanged. -/
theorem c6_witness :
    (findBookingByBlockchainId strapiX "1" = []) ∧
    (createBookingInStrapi true recover0 strapiX bdX = (strapiX, some sbX)) := by
  refine ⟨c6_amended.1 strapiX "1", ?_⟩
  exact c6_amended.2 recover0 strapiX bdX spX [] sbX [] (by decide) (by decide)

/-- C10: the projection-side booking-creation handler enforces at most one
booking record per property — if any booking record is linked to the
property (whatever its dates or status), the handler returns it and
creates nothing — so two distinct ledger booking events with
non-overlapping dates on one property leave exactly one projection
record. -/
theorem c10_one_booking_per_property :
    (∀ (recover : Strapi → String → Strapi) (s : Strapi) (bd : BookingData)
        (p : StrapiProperty) (ps : List StrapiProperty) (b : StrapiBooking)
        (bs : List StrapiBooking),
      findPropertyByBlockchainId s bd.propertyId = p :: ps →
      findBookingsByPropertyId s p.id = b :: bs →
      (createBookingInStrapi true recover s bd).1 = s ∧
      (createBookingInStrapi true recover s bd).2 = some b ∧
      b ∈ s.bookings ∧ b.propertyRel = p.id) ∧
    (∀ (recover : Strapi → String → Strapi) (s0 : Strapi) (bd1 bd2 : BookingData)
        (p : StrapiProperty),
      findPropertyByBlockchainId s0 bd1.propertyId = [p] →
      findBookingsByPropertyId s0 p.id = [] →
      bd2.propertyId = bd1.propertyId →
      ∃ nb : StrapiBooking,
        createBookingInStrapi true recover s0 bd1 = (strapiAfterInsert s0 nb, some nb) ∧
        nb.propertyRel = p.id ∧ nb.blockchainBookingId = bd1.bookingId ∧
        (findBookingsByPropertyId (strapiAfterInsert s0 nb) p.id).length = 1 ∧
        createBookingInStrapi true recover (strapiAfterInsert s0 nb) bd2
          = (strapiAfterInsert s0 nb, some nb)) := by
  have hinsert : ∀ (recover : Strapi → String → Strapi) (s : Strapi) (bd : BookingData)
      (p : StrapiProperty) (ps : List StrapiProperty) (b : StrapiBooking)
      (bs : List StrapiBooking),
      findPropertyByBlockchainId s bd.propertyId = p :: ps →
      findBookingsByPropertyId s p.id = b :: bs →
      createBookingInStrapi true recover s bd = (s, some b) := by
    intro recover s bd p ps b bs hp hb
    unfold createBookingInStrapi
    rw [if_neg (show ¬(true = false) by decide), findBookingByBlockchainId_nil, hp]
    show strapiInsertBooking s bd p = (s, some b)
    unfold strapiInsertBooking
    rw [hb]
  refine ⟨?_, ?_⟩
  · intro recover s bd p ps b bs hp hb
    have hres := hinsert recover s bd p ps b bs hp hb
    have hmemf : b ∈ findBookingsByPropertyId s p.id := by
      rw [hb]
      exact List.mem_cons_self _ _
    have hmem : b ∈ s.bookings := List.mem_of_mem_filter hmemf
    have hrel : b.propertyRel = p.id := by
      have := List.of_mem_filter hmemf
      simpa using this
    rw [hres]
    exact ⟨rfl, rfl, hmem, hrel⟩
  · intro recover s0 bd1 bd2 p hp hb0 heq
    refine ⟨⟨s0.nextId, p.id, bd1.bookingId, bd1.startDate, bd1.endDate, bd1.status⟩,
      ?_, rfl, rfl, ?_, ?_⟩
    · unfold createBookingInStrapi
      rw [if_neg (show ¬(true = false) by decide), findBookingByBlockchainId_nil, hp]
      show strapiInsertBooking s0 bd1 p = _
      unfold strapiInsertBooking
      rw [hb0]
      rfl
    · unfold findBookingsByPropertyId at hb0 ⊢
      rw [show (strapiAfterInsert s0
            ⟨s0.nextId, p.id, bd1.bookingId, bd1.startDate, bd1.endDate,
              bd1.status⟩).bookings
          = s0.bookings ++
            [⟨s0.nextId, p.id, bd1.bookingId, bd1.startDate, bd1.endDate, bd1.status⟩]
          from rfl, List.filter_append, hb0]
      simp
    · have hb1 : findBookingsByPropertyId (strapiAfterInsert s0
          ⟨s0.nextId, p.id, bd1.bookingId, bd1.startDate, bd1.endDate, bd1.status⟩) p.id
          = [⟨s0.nextId, p.id, bd1.bookingId, bd1.startDate, bd1.endDate,
              bd1.status⟩] := by
        unfold findBookingsByPropertyId at hb0 ⊢
        rw [show (strapiAfterInsert s0
              ⟨s0.nextId, p.id, bd1.bookingId, bd1.startDate, bd1.endDate,
                bd1.status⟩).bookings
            = s0.bookings ++
              [⟨s0.nextId, p.id, bd1.bookingId, bd1.startDate, bd1.endDate,
                bd1.status⟩]
            from rfl, List.filter_append, hb0]
        simp
      have hp2 : findPropertyByBlockchainId (strapiAfterInsert s0
          ⟨s0.nextId, p.id, bd1.bookingId, bd1.startDate, bd1.endDate, bd1.status⟩)
          bd2.propertyId = p :: [] := by
        unfold findPropertyByBlockchainId at hp ⊢
        rw [heq]
        exact hp
      exact hinsert recover _ bd2 p []
        ⟨s0.nextId, p.id, bd1.bookingId, bd1.startDate, bd1.endDate, bd1.status⟩ []
        hp2 hb1

/-- C10 witness: starting from the store holding only the property, the
first booking event inserts one record; the second event (different
ledger id, non-overlapping dates, same property) returns that record and
inserts nothing — one record remains. -/
theorem c10_witness :
    ∃ nb : StrapiBooking,
      createBookingInStrapi true recover0 strapiEmpty bdX
        = (strapiAfterInsert strapiEmpty nb, some nb) ∧
      nb.propertyRel = spX.id ∧ nb.blockchainBookingId = bdX.bookingId ∧
      (findBookingsByPropertyId (strapiAfterInsert strapiEmpty nb) spX.id).length
        = 1 ∧
      createBookingInStrapi true recover0 (strapiAfterInsert strapiEmpty nb) bd2X
        = (strapiAfterInsert strapiEmpty nb, some nb) := by
  exact c10_one_booking_per_property.2 recover0 strapiEmpty bdX bd2X spX (by decide)
    (by decide) rfl

end AtlasOra
